import Mathlib

/-!
# Deadzone normalisation of XInput gamepad readings

A shallow embedding of `joystick_windows.go` and the properties of its axis
normalisation.

Modelling conventions.

* Integer division in Go truncates toward zero, which is `Int.tdiv`.
* Go `int` is a signed integer of 32 or 64 bits whose arithmetic wraps.  The
  functions `scaleValueW`, `applyDeadzoneW` and `applyTriggerDeadzoneW` evaluate
  the code with every operation wrapped to a signed `w`-bit integer.  The
  functions `scaleValue`, `applyDeadzone` and `applyTriggerDeadzone` evaluate the
  same code over the mathematical integers (`Int`); the two evaluations agree
  on every raw stick and trigger value, and so on every input that `Read` can
  supply.  A property that reaches beyond the raw values is stated on the
  wrapped functions.
* A Go `panic` is the `Except.error` case of `Except String`, carrying the
  panic message; a normal return is `Except.ok`.
* A Go `error` return value is an `Option String`: `none` is `nil`, `some msg`
  is the error built by `fmt.Errorf`.
* The fixed-width fields of the XInput structures are `Nat`/`Int` fields; the
  width of each field is recorded by the predicates `XInputGamepad.wf` and
  `XInputState.wf`.
* The call into `xinput1_4.dll` is outside the program: `Read` takes its return
  code and the `XInputState` it left in the receiver as arguments.
-/

namespace Joystick

/-! ## Constants -/

/-- Deadzone for the left thumb stick (-32767 to 32767). -/
def XINPUT_DEADZONE_LEFT_THUMB : Int := 7849

/-- Deadzone for the right thumb stick (-32767 to 32767). -/
def XINPUT_DEADZONE_RIGHT_THUMB : Int := 8689

/-- Threshold for the left and right triggers (0 to 255). -/
def XINPUT_DEADZONE_TRIGGER : Int := 30

/-! ## Data model -/

/-- The gamepad part of an XInput snapshot: `Buttons` is a `uint16`, the
triggers are `uint8`, the four thumb-stick axes are `int16`. -/
structure XInputGamepad where
  Buttons : Nat
  LeftTrigger : Nat
  RightTrigger : Nat
  ThumbLX : Int
  ThumbLY : Int
  ThumbRX : Int
  ThumbRY : Int
  deriving DecidableEq, Repr

/-- Every field of the gamepad snapshot is in the range of its Go type. -/
def XInputGamepad.wf (g : XInputGamepad) : Prop :=
  g.Buttons < 2 ^ 16 ∧ g.LeftTrigger < 2 ^ 8 ∧ g.RightTrigger < 2 ^ 8 ∧
  (-(2 ^ 15) ≤ g.ThumbLX ∧ g.ThumbLX < 2 ^ 15) ∧
  (-(2 ^ 15) ≤ g.ThumbLY ∧ g.ThumbLY < 2 ^ 15) ∧
  (-(2 ^ 15) ≤ g.ThumbRX ∧ g.ThumbRX < 2 ^ 15) ∧
  (-(2 ^ 15) ≤ g.ThumbRY ∧ g.ThumbRY < 2 ^ 15)

instance (g : XInputGamepad) : Decidable g.wf := by
  unfold XInputGamepad.wf
  infer_instance

/-- An XInput snapshot: `PacketNumber` is a `uint32`. -/
structure XInputState where
  PacketNumber : Nat
  Gamepad : XInputGamepad
  deriving DecidableEq, Repr

/-- Every field of the snapshot is in the range of its Go type. -/
def XInputState.wf (s : XInputState) : Prop :=
  s.PacketNumber < 2 ^ 32 ∧ s.Gamepad.wf

instance (s : XInputState) : Decidable s.wf := by
  unfold XInputState.wf
  infer_instance

/-- The receiver of the XInput joystick methods.  The `axes` slice is never
assigned by this file and stays `nil`, the empty list. -/
structure joystickImpl where
  id : Int
  axisCount : Int
  buttonCount : Int
  state : XInputState
  button : Int
  axes : List Float

/-- Modelled from the spec: the `State` type is declared in a file of the
package that is not part of the source at hand; `Read` builds it from a
`uint32` button bitmask `Buttons` and a slice of integers `AxisData`, the
"normalized state object" with the button bitmask and the normalized integer
axis values. -/
structure State where
  Buttons : Nat
  AxisData : List Int
  deriving DecidableEq, Repr

/-! ## Operations -/

/-- Linear rescaling of `value` from `[srcMin, srcMax]` to `[tgtMin, tgtMax]`
with truncating division; panics on a zero-width source range. -/
def scaleValue (value srcMin srcMax tgtMin tgtMax : Int) : Except String Int :=
  let srcRange := srcMax - srcMin
  if srcRange = 0 then
    Except.error "source range cannot be zero"
  else
    let tgtRange := tgtMax - tgtMin
    let scaledValue := ((value - srcMin) * tgtRange).tdiv srcRange + tgtMin
    Except.ok scaledValue

/-- Deadzone of a signed stick axis. -/
def applyDeadzone (value deadzone : Int) : Except String Int :=
  if value > deadzone then
    scaleValue value deadzone 32767 0 32767
  else if value < -deadzone then
    scaleValue value (-32767) (-deadzone) (-32767) 0
  else
    Except.ok 0

/-- Deadzone of an unsigned trigger. -/
def applyTriggerDeadzone (value deadzone : Int) : Except String Int :=
  if value > deadzone then
    scaleValue value deadzone 255 0 255
  else
    Except.ok 0

/-- The constructor `Open`: the joystick together with the error value. -/
def Open (id : Int) : Option joystickImpl × Option String :=
  if id < 0 ∨ id > 3 then
    (none, some ("invalid joystick id: " ++ toString id))
  else
    (some ⟨id, 6, 16, ⟨0, ⟨0, 0, 0, 0, 0, 0, 0⟩⟩, 0, []⟩, none)

/-- The method `Read`.  `ret` is the return code of the `XInputGetState` call
and `st` the snapshot the call left in `js.state`.  The result is the receiver
after the call, the returned `State` and the returned error. -/
def Read (js : joystickImpl) (ret : Nat) (st : XInputState) :
    Except String (joystickImpl × State × Option String) :=
  let js1 : joystickImpl := ⟨js.id, js.axisCount, js.buttonCount, st, js.button, js.axes⟩
  if ret ≠ 0 then
    Except.ok (js1, ⟨0, []⟩, some ("joystick " ++ toString js.id ++ " is not connected"))
  else do
    let gamepad := js1.state.Gamepad
    let lx ← applyDeadzone gamepad.ThumbLX XINPUT_DEADZONE_LEFT_THUMB
    let ly ← applyDeadzone gamepad.ThumbLY XINPUT_DEADZONE_LEFT_THUMB
    let rx ← applyDeadzone gamepad.ThumbRX XINPUT_DEADZONE_RIGHT_THUMB
    let ry ← applyDeadzone gamepad.ThumbRY XINPUT_DEADZONE_RIGHT_THUMB
    let lt ← applyTriggerDeadzone (gamepad.LeftTrigger : Int) XINPUT_DEADZONE_TRIGGER
    let rt ← applyTriggerDeadzone (gamepad.RightTrigger : Int) XINPUT_DEADZONE_TRIGGER
    Except.ok (js1, ⟨gamepad.Buttons % 2 ^ 32, [lx, ly, rx, ry, lt, rt]⟩, none)

/-- The method `AxisCount`. -/
def joystickImpl.AxisCount (js : joystickImpl) : Int := js.axisCount

/-- The method `ButtonCount`. -/
def joystickImpl.ButtonCount (js : joystickImpl) : Int := js.buttonCount

/-- The method `Name`. -/
def joystickImpl.Name (js : joystickImpl) : String :=
  "XInput Controller " ++ toString js.id

/-! ## The rescaling formula of the specification -/

/-- The rescaling formula as the specification words it,
`(value - srcMin) * (tgtMax - tgtMin) / (srcMax - srcMin) + tgtMin`, read with
integer division truncating toward zero. -/
def scaleValueTruncating (value srcMin srcMax tgtMin tgtMax : Int) : Int :=
  Int.tdiv ((value - srcMin) * (tgtMax - tgtMin)) (srcMax - srcMin) + tgtMin

/-- The same formula read with floor division, for comparison. -/
def scaleValueFloor (value srcMin srcMax tgtMin tgtMax : Int) : Int :=
  Int.fdiv ((value - srcMin) * (tgtMax - tgtMin)) (srcMax - srcMin) + tgtMin

/-! ## Call sites of `scaleValue` -/

/-- The five arguments of one call of `scaleValue`. -/
structure ScaleCall where
  value : Int
  srcMin : Int
  srcMax : Int
  tgtMin : Int
  tgtMax : Int
  deriving DecidableEq, Repr

/-- The result of the call. -/
def ScaleCall.run (c : ScaleCall) : Except String Int :=
  scaleValue c.value c.srcMin c.srcMax c.tgtMin c.tgtMax

/-- The call of `scaleValue` that `applyDeadzone` makes, if it makes one: the
same two comparisons as `applyDeadzone`, with the arguments of the call in place
of its result. -/
def applyDeadzoneCall (value deadzone : Int) : Option ScaleCall :=
  if value > deadzone then
    some ⟨value, deadzone, 32767, 0, 32767⟩
  else if value < -deadzone then
    some ⟨value, -32767, -deadzone, -32767, 0⟩
  else
    none

/-- The call of `scaleValue` that `applyTriggerDeadzone` makes, if it makes
one. -/
def applyTriggerDeadzoneCall (value deadzone : Int) : Option ScaleCall :=
  if value > deadzone then
    some ⟨value, deadzone, 255, 0, 255⟩
  else
    none

/-- What a deadzone function returns, given the call of `scaleValue` it makes:
the result of the call, or `0` when it makes none. -/
def resultOfCall (call : Option ScaleCall) : Except String Int :=
  match call with
  | some c => c.run
  | none => Except.ok 0

/-! ## Fixed-width arithmetic -/

/-- The signed `w`-bit integer that a mathematical integer wraps to
(two-complement, `1 ≤ w`). -/
def wrapInt (w : Nat) (x : Int) : Int :=
  (x + 2 ^ (w - 1)) % 2 ^ w - 2 ^ (w - 1)

/-- The function `scaleValue` with every arithmetic operation wrapped to `w`
bits, as Go evaluates it on a `w`-bit `int`. -/
def scaleValueW (w : Nat) (value srcMin srcMax tgtMin tgtMax : Int) : Except String Int :=
  let srcRange := wrapInt w (srcMax - srcMin)
  if srcRange = 0 then
    Except.error "source range cannot be zero"
  else
    let tgtRange := wrapInt w (tgtMax - tgtMin)
    let scaledValue :=
      wrapInt w (wrapInt w ((wrapInt w (wrapInt w (value - srcMin) * tgtRange)).tdiv srcRange)
        + tgtMin)
    Except.ok scaledValue

/-- The function `applyDeadzone` on a `w`-bit `int`. -/
def applyDeadzoneW (w : Nat) (value deadzone : Int) : Except String Int :=
  if value > deadzone then
    scaleValueW w value deadzone 32767 0 32767
  else if value < wrapInt w (-deadzone) then
    scaleValueW w value (-32767) (wrapInt w (-deadzone)) (-32767) 0
  else
    Except.ok 0

/-- The function `applyTriggerDeadzone` on a `w`-bit `int`. -/
def applyTriggerDeadzoneW (w : Nat) (value deadzone : Int) : Except String Int :=
  if value > deadzone then
    scaleValueW w value deadzone 255 0 255
  else
    Except.ok 0

/-- The integer `x` is a value of a signed `w`-bit integer. -/
def fitsInt (w : Nat) (x : Int) : Prop :=
  -(2 ^ (w - 1)) ≤ x ∧ x < 2 ^ (w - 1)

instance (w : Nat) (x : Int) : Decidable (fitsInt w x) := by
  unfold fitsInt
  infer_instance

/-- No intermediate result of `scaleValue` on these arguments overflows a signed
`w`-bit integer: the two ranges, the offset of the value, their product, the
quotient and the final sum are all `w`-bit values. -/
def scaleValueFits (w : Nat) (value srcMin srcMax tgtMin tgtMax : Int) : Prop :=
  fitsInt w (srcMax - srcMin) ∧ fitsInt w (tgtMax - tgtMin) ∧ fitsInt w (value - srcMin) ∧
  fitsInt w ((value - srcMin) * (tgtMax - tgtMin)) ∧
  fitsInt w (((value - srcMin) * (tgtMax - tgtMin)).tdiv (srcMax - srcMin)) ∧
  fitsInt w (((value - srcMin) * (tgtMax - tgtMin)).tdiv (srcMax - srcMin) + tgtMin)

instance (w : Nat) (value srcMin srcMax tgtMin tgtMax : Int) :
    Decidable (scaleValueFits w value srcMin srcMax tgtMin tgtMax) := by
  unfold scaleValueFits
  infer_instance

/-! ## The exact linear map of the specification -/

/-- The value at `x` of the line through the points `(x0, y0)` and `(x1, y1)`,
over the rationals. -/
def lineThrough (x0 y0 x1 y1 x : ℚ) : ℚ :=
  y0 + (x - x0) * (y1 - y0) / (x1 - x0)

/-- The exact linear map of the specification for a stick value outside the
deadzone: the line through `(dz, 0)` and `(32767, 32767)` above the deadzone, the
line through `(-32767, -32767)` and `(-dz, 0)` below it. -/
def deadzoneLine (v dz : Int) : ℚ :=
  if v > dz then
    lineThrough dz 0 32767 32767 v
  else
    lineThrough (-32767) (-32767) (-dz) 0 v

deriving instance DecidableEq for Except

/-! ## Unfolding lemmas -/

theorem scaleValue_of_ne (value srcMin srcMax tgtMin tgtMax : Int) (h : srcMax ≠ srcMin) :
    scaleValue value srcMin srcMax tgtMin tgtMax =
      Except.ok (((value - srcMin) * (tgtMax - tgtMin)).tdiv (srcMax - srcMin) + tgtMin) := by
  have h0 : ¬ (srcMax - srcMin = 0) := fun e => h (by omega)
  simp only [scaleValue, if_neg h0]

theorem scaleValue_of_eq (value srcMin srcMax tgtMin tgtMax : Int) (h : srcMax = srcMin) :
    scaleValue value srcMin srcMax tgtMin tgtMax = Except.error "source range cannot be zero" := by
  have h0 : srcMax - srcMin = 0 := by omega
  simp only [scaleValue, if_pos h0]

theorem applyDeadzone_above (v dz : Int) (hv : v > dz) (hdz : dz ≠ 32767) :
    applyDeadzone v dz = Except.ok (((v - dz) * 32767).tdiv (32767 - dz)) := by
  have h : (32767 : Int) ≠ dz := fun e => hdz e.symm
  simp only [applyDeadzone, if_pos hv, scaleValue_of_ne v dz 32767 0 32767 h]
  simp

theorem applyDeadzone_below (v dz : Int) (hv : ¬ v > dz) (hv2 : v < -dz) (hdz : dz ≠ 32767) :
    applyDeadzone v dz = Except.ok (((v + 32767) * 32767).tdiv (32767 - dz) - 32767) := by
  have h : -dz ≠ (-32767 : Int) := fun e => hdz (by omega)
  simp only [applyDeadzone, if_neg hv, if_pos hv2, scaleValue_of_ne v (-32767) (-dz) (-32767) 0 h]
  have e1 : v - (-32767 : Int) = v + 32767 := by omega
  have e2 : (0 : Int) - (-32767) = 32767 := by omega
  have e3 : -dz - (-32767 : Int) = 32767 - dz := by omega
  rw [e1, e2, e3]
  rfl

theorem applyDeadzone_inside (v dz : Int) (hv : ¬ v > dz) (hv2 : ¬ v < -dz) :
    applyDeadzone v dz = Except.ok 0 := by
  simp only [applyDeadzone, if_neg hv, if_neg hv2]

theorem applyTriggerDeadzone_above (v dz : Int) (hv : v > dz) (hdz : dz ≠ 255) :
    applyTriggerDeadzone v dz = Except.ok (((v - dz) * 255).tdiv (255 - dz)) := by
  have h : (255 : Int) ≠ dz := fun e => hdz e.symm
  simp only [applyTriggerDeadzone, if_pos hv, scaleValue_of_ne v dz 255 0 255 h]
  simp

theorem applyTriggerDeadzone_inside (v dz : Int) (hv : ¬ v > dz) :
    applyTriggerDeadzone v dz = Except.ok 0 := by
  simp only [applyTriggerDeadzone, if_neg hv]

theorem applyDeadzone_returns (v dz : Int) (hdz : dz ≠ 32767) :
    ∃ r, applyDeadzone v dz = Except.ok r := by
  rcases lt_or_le dz v with hv | hv
  · exact ⟨_, applyDeadzone_above v dz hv hdz⟩
  · rcases lt_or_le v (-dz) with hv2 | hv2
    · exact ⟨_, applyDeadzone_below v dz (by omega) hv2 hdz⟩
    · exact ⟨_, applyDeadzone_inside v dz (by omega) (by omega)⟩

theorem applyTriggerDeadzone_returns (v dz : Int) (hdz : dz ≠ 255) :
    ∃ r, applyTriggerDeadzone v dz = Except.ok r := by
  rcases lt_or_le dz v with hv | hv
  · exact ⟨_, applyTriggerDeadzone_above v dz hv hdz⟩
  · exact ⟨_, applyTriggerDeadzone_inside v dz (by omega)⟩

/-! ## Truncating division -/

theorem tdiv_of_nonneg (n d : Int) (hn : 0 ≤ n) (hd : 0 < d) : n.tdiv d = n / d :=
  Int.tdiv_eq_ediv hn (le_of_lt hd)

theorem tdiv_of_nonpos (n d : Int) (hn : n ≤ 0) (hd : 0 < d) : n.tdiv d = -((-n) / d) := by
  have h : n = -(-n) := by omega
  rw [h, Int.neg_tdiv, tdiv_of_nonneg (-n) d (by omega) hd]
  simp

theorem tdiv_mono (a b d : Int) (hab : a ≤ b) (hd : 0 < d) : a.tdiv d ≤ b.tdiv d := by
  rcases le_or_lt 0 a with ha | ha
  · rw [tdiv_of_nonneg a d ha hd, tdiv_of_nonneg b d (le_trans ha hab) hd]
    exact Int.ediv_le_ediv hd hab
  · rcases le_or_lt 0 b with hb | hb
    · rw [tdiv_of_nonpos a d (le_of_lt ha) hd, tdiv_of_nonneg b d hb hd]
      have h1 : 0 ≤ (-a) / d := Int.ediv_nonneg (by omega) (le_of_lt hd)
      have h2 : 0 ≤ b / d := Int.ediv_nonneg hb (le_of_lt hd)
      omega
    · rw [tdiv_of_nonpos a d (le_of_lt ha) hd, tdiv_of_nonpos b d (le_of_lt hb) hd]
      have h1 : (-b) / d ≤ (-a) / d := Int.ediv_le_ediv hd (by omega)
      omega

theorem ediv_add_ediv_neg (n d : Int) (hd : 0 < d) :
    -1 ≤ n / d + (-n) / d ∧ n / d + (-n) / d ≤ 0 ∧ (n / d + (-n) / d = 0 ↔ d ∣ n) := by
  have e1 := Int.emod_add_ediv n d
  have e2 := Int.emod_add_ediv (-n) d
  have r1 := Int.emod_nonneg n (ne_of_gt hd)
  have r2 := Int.emod_nonneg (-n) (ne_of_gt hd)
  have s1 := Int.emod_lt_of_pos n hd
  have s2 := Int.emod_lt_of_pos (-n) hd
  have key : d * (n / d + (-n) / d) = -(n % d + (-n) % d) := by
    have : d * (n / d + (-n) / d) = d * (n / d) + d * ((-n) / d) := by ring
    omega
  refine ⟨?_, ?_, ?_⟩
  · by_contra hc
    have : n / d + (-n) / d ≤ -2 := by omega
    nlinarith
  · by_contra hc
    have : 1 ≤ n / d + (-n) / d := by omega
    nlinarith
  · constructor
    · intro h0
      rw [h0] at key
      have : n % d = 0 := by omega
      exact Int.dvd_of_emod_eq_zero this
    · intro hdvd
      have h3 : n % d = 0 := Int.emod_eq_zero_of_dvd hdvd
      have h4 : (-n) % d = 0 := Int.emod_eq_zero_of_dvd ((Int.dvd_neg).mpr hdvd)
      rw [h3, h4] at key
      have : d * (n / d + (-n) / d) = 0 := by omega
      rcases Int.mul_eq_zero.mp this with h | h
      · omega
      · exact h

theorem deadzone_mirror (dz w : Int) (h0 : 0 ≤ dz) (h1 : dz < 32767) (hw : dz < w) :
    -1 ≤ ((w - dz) * 32767).tdiv (32767 - dz) + (((-w + 32767) * 32767).tdiv (32767 - dz) - 32767) ∧
    ((w - dz) * 32767).tdiv (32767 - dz) + (((-w + 32767) * 32767).tdiv (32767 - dz) - 32767) ≤ 0 ∧
    (((w - dz) * 32767).tdiv (32767 - dz) + (((-w + 32767) * 32767).tdiv (32767 - dz) - 32767) = 0 ↔
      32767 ≤ w ∨ (32767 - dz) ∣ (w - dz) * 32767) := by
  have hd : (0 : Int) < 32767 - dz := by omega
  have hN : 0 ≤ (w - dz) * 32767 := by nlinarith
  rw [tdiv_of_nonneg _ _ hN hd]
  rcases le_or_lt w 32767 with hle | hgt
  · have hR : 0 ≤ (-w + 32767) * 32767 := by nlinarith
    have eR : (-w + 32767) * 32767 = -((w - dz) * 32767) + 32767 * (32767 - dz) := by ring
    rw [tdiv_of_nonneg _ _ hR hd, eR, Int.add_mul_ediv_right _ _ (ne_of_gt hd)]
    obtain ⟨a1, a2, a3⟩ := ediv_add_ediv_neg ((w - dz) * 32767) (32767 - dz) hd
    refine ⟨by omega, by omega, ?_⟩
    constructor
    · intro h
      exact Or.inr (a3.mp (by omega))
    · rintro (h | h)
      · have ew : w = 32767 := by omega
        have hdvd : (32767 - dz) ∣ (w - dz) * 32767 := by
          rw [ew]
          exact Dvd.intro _ rfl
        have := a3.mpr hdvd
        omega
      · have := a3.mpr h
        omega
  · have hK : 0 ≤ (w - 32767) * 32767 := by nlinarith
    have eR : (-w + 32767) * 32767 = -((w - 32767) * 32767) := by ring
    have hR : (-w + 32767) * 32767 ≤ 0 := by omega
    have eN : (w - dz) * 32767 = (w - 32767) * 32767 + 32767 * (32767 - dz) := by ring
    rw [tdiv_of_nonpos _ _ hR hd, eN, Int.add_mul_ediv_right _ _ (ne_of_gt hd)]
    have e2 : -((-w + 32767) * 32767) = (w - 32767) * 32767 := by omega
    rw [e2]
    refine ⟨by omega, by omega, ?_⟩
    constructor
    · intro _
      exact Or.inl (le_of_lt hgt)
    · intro _
      omega

/-! ## Bounds on the two rescaling branches -/

theorem above_pos (dz v : Int) (h0 : 0 ≤ dz) (h1 : dz < 32767) (hv : dz < v) :
    1 ≤ ((v - dz) * 32767).tdiv (32767 - dz) := by
  have hd : (0 : Int) < 32767 - dz := by omega
  have hle : 1 * (32767 - dz) ≤ (v - dz) * 32767 := by nlinarith
  have hm := tdiv_mono _ _ _ hle hd
  rw [Int.mul_tdiv_cancel _ (ne_of_gt hd)] at hm
  exact hm

theorem above_le (dz v : Int) (h1 : dz < 32767) (hv : v ≤ 32767) :
    ((v - dz) * 32767).tdiv (32767 - dz) ≤ 32767 := by
  have hd : (0 : Int) < 32767 - dz := by omega
  have hle : (v - dz) * 32767 ≤ 32767 * (32767 - dz) := by nlinarith
  have hm := tdiv_mono _ _ _ hle hd
  rw [Int.mul_tdiv_cancel _ (ne_of_gt hd)] at hm
  exact hm

theorem below_neg (dz v : Int) (h1 : dz < 32767) (hv : v < -dz) :
    ((v + 32767) * 32767).tdiv (32767 - dz) - 32767 ≤ -1 := by
  have hd : (0 : Int) < 32767 - dz := by omega
  have hle : (v + 32767) * 32767 ≤ (32767 - dz - 1) * 32767 := by nlinarith
  have hm := tdiv_mono _ _ _ hle hd
  have hn : (0 : Int) ≤ (32767 - dz - 1) * 32767 := by nlinarith
  rw [tdiv_of_nonneg _ _ hn hd] at hm
  have hlt : (32767 - dz - 1) * 32767 / (32767 - dz) < 32767 :=
    Int.ediv_lt_of_lt_mul hd (by nlinarith)
  omega

theorem below_ge (dz v : Int) (h1 : dz < 32767) (hv : -32767 ≤ v) :
    -32767 ≤ ((v + 32767) * 32767).tdiv (32767 - dz) - 32767 := by
  have hd : (0 : Int) < 32767 - dz := by omega
  have hn : (0 : Int) ≤ (v + 32767) * 32767 := by nlinarith
  have := Int.tdiv_nonneg hn (le_of_lt hd)
  omega

theorem below_ge_min (dz v : Int) (hdz : dz ≤ 16383) (hv : -32768 ≤ v) :
    -32768 ≤ ((v + 32767) * 32767).tdiv (32767 - dz) - 32767 := by
  have hd : (0 : Int) < 32767 - dz := by omega
  have hle : (-32767 : Int) ≤ (v + 32767) * 32767 := by nlinarith
  have hm := tdiv_mono _ _ _ hle hd
  rw [tdiv_of_nonpos _ _ (by decide) hd] at hm
  have hlt : (- -32767 : Int) / (32767 - dz) < 2 :=
    Int.ediv_lt_of_lt_mul hd (by omega)
  omega

theorem trigger_above_bounds (dz v : Int) (h0 : 0 ≤ dz) (h1 : dz < 255) (hv : dz < v)
    (hv1 : v ≤ 255) :
    1 ≤ ((v - dz) * 255).tdiv (255 - dz) ∧ ((v - dz) * 255).tdiv (255 - dz) ≤ 255 := by
  have hd : (0 : Int) < 255 - dz := by omega
  constructor
  · have hle : 1 * (255 - dz) ≤ (v - dz) * 255 := by nlinarith
    have hm := tdiv_mono _ _ _ hle hd
    rw [Int.mul_tdiv_cancel _ (ne_of_gt hd)] at hm
    exact hm
  · have hle : (v - dz) * 255 ≤ 255 * (255 - dz) := by nlinarith
    have hm := tdiv_mono _ _ _ hle hd
    rw [Int.mul_tdiv_cancel _ (ne_of_gt hd)] at hm
    exact hm

/-- The value `applyDeadzone` returns for an `int16` input, when the deadzone is
at most `16383` or the input is not `-32768`, is an `int16`. -/
theorem applyDeadzone_bounds (v dz : Int) (hv0 : -32768 ≤ v) (hv1 : v ≤ 32767)
    (h0 : 0 ≤ dz) (h1 : dz < 32767) (h : -32767 ≤ v ∨ dz ≤ 16383) :
    ∃ r, applyDeadzone v dz = Except.ok r ∧ -32768 ≤ r ∧ r ≤ 32767 := by
  have hne : dz ≠ 32767 := by omega
  rcases lt_or_le dz v with hv | hv
  · have a1 := above_pos dz v h0 h1 hv
    have a2 := above_le dz v h1 hv1
    exact ⟨_, applyDeadzone_above v dz hv hne, by omega, a2⟩
  · rcases lt_or_le v (-dz) with hv2 | hv2
    · have b1 := below_neg dz v h1 hv2
      refine ⟨_, applyDeadzone_below v dz (by omega) hv2 hne, ?_, by omega⟩
      rcases h with h | h
      · have := below_ge dz v h1 h
        omega
      · exact below_ge_min dz v h hv0
    · exact ⟨0, applyDeadzone_inside v dz (by omega) (by omega), by decide, by decide⟩

/-- The value `applyTriggerDeadzone` returns for a `uint8` input is a `uint8`. -/
theorem applyTriggerDeadzone_bounds (v dz : Int) (hv1 : v ≤ 255) (h0 : 0 ≤ dz)
    (h1 : dz < 255) :
    ∃ r, applyTriggerDeadzone v dz = Except.ok r ∧ 0 ≤ r ∧ r ≤ 255 := by
  rcases lt_or_le dz v with hv | hv
  · obtain ⟨t1, t2⟩ := trigger_above_bounds dz v h0 h1 hv hv1
    exact ⟨_, applyTriggerDeadzone_above v dz hv (by omega), by omega, t2⟩
  · exact ⟨0, applyTriggerDeadzone_inside v dz (by omega), by decide, by decide⟩

/-! ## Stick deadzone -/

/-- C1: whenever `|v| ≤ deadzone`, `applyDeadzone v deadzone` returns exactly `0`
without panicking, and so does `applyDeadzone deadzone deadzone`. -/
theorem applyDeadzone_zero_in_deadzone (v deadzone : Int) (h : |v| ≤ deadzone) :
    applyDeadzone v deadzone = Except.ok 0 ∧ applyDeadzone deadzone deadzone = Except.ok 0 := by
  obtain ⟨hl, hu⟩ := abs_le.mp h
  exact ⟨applyDeadzone_inside v deadzone (by omega) (by omega),
    applyDeadzone_inside deadzone deadzone (by omega) (by omega)⟩

theorem applyDeadzone_zero_in_deadzone_witness :
    |(-7849 : Int)| ≤ 7849 ∧ applyDeadzone (-7849) 7849 = Except.ok 0 ∧
      applyDeadzone 7849 7849 = Except.ok 0 :=
  ⟨by decide, applyDeadzone_zero_in_deadzone (-7849) 7849 (by decide)⟩

/-- C2, as stated, fails: at `v = 7850`, `dz = 7849` the code returns `1` for `v`
and `-2` for `-v`, so `applyDeadzone v dz = -applyDeadzone (-v) dz` does not hold
for every `v`. -/
theorem applyDeadzone_symmetry_fails :
    applyDeadzone 7850 7849 = Except.ok 1 ∧ applyDeadzone (-7850) 7849 = Except.ok (-2) ∧
    ¬ (∀ dz v : Int, 0 ≤ dz → dz < 32767 →
        ∃ x y, applyDeadzone v dz = Except.ok x ∧ applyDeadzone (-v) dz = Except.ok y ∧
          x = -y) := by
  refine ⟨by decide, by decide, ?_⟩
  intro h
  obtain ⟨x, y, hx, hy, hxy⟩ := h 7849 7850 (by decide) (by decide)
  have e1 : applyDeadzone 7850 7849 = Except.ok 1 := by decide
  have e2 : applyDeadzone (-7850) 7849 = Except.ok (-2) := by decide
  rw [e1] at hx
  rw [e2] at hy
  injection hx with hx
  injection hy with hy
  omega

/-- Over the mathematical integers: for `0 ≤ dz < 32767` the value at `v` and the
negated value at `-v` differ by at most one, and are equal exactly when
`|v| ≤ dz`, or `32767 ≤ |v|`, or `32767 - dz` divides `(|v| - dz) * 32767`. -/
theorem applyDeadzone_mirror_int (dz v : Int) (h0 : 0 ≤ dz) (h1 : dz < 32767) :
    ∃ x y, applyDeadzone v dz = Except.ok x ∧ applyDeadzone (-v) dz = Except.ok y ∧
      x ≤ -y ∧ -y ≤ x + 1 ∧
      (x = -y ↔ |v| ≤ dz ∨ 32767 ≤ |v| ∨ (32767 - dz) ∣ (|v| - dz) * 32767) := by
  have hne : dz ≠ 32767 := by omega
  rcases lt_trichotomy dz v with hv | hv | hv
  · -- `v` above the deadzone, `-v` below it
    have ha : |v| = v := abs_of_nonneg (by omega)
    obtain ⟨m1, m2, m3⟩ := deadzone_mirror dz v h0 h1 hv
    refine ⟨_, _, applyDeadzone_above v dz hv hne,
      applyDeadzone_below (-v) dz (by omega) (by omega) hne, by omega, by omega, ?_⟩
    rw [ha]
    constructor
    · intro h
      exact Or.inr (m3.mp (by omega))
    · rintro (h | h)
      · omega
      · have := m3.mpr h
        omega
  · -- `v = dz`
    have ha : |v| = v := abs_of_nonneg (by omega)
    refine ⟨0, 0, applyDeadzone_inside v dz (by omega) (by omega),
      applyDeadzone_inside (-v) dz (by omega) (by omega), by omega, by omega, ?_⟩
    rw [ha]
    constructor
    · intro _
      exact Or.inl (by omega)
    · intro _
      omega
  · rcases lt_or_le v (-dz) with hlo | hlo
    · -- `v` below the deadzone, `-v` above it
      have ha : |v| = -v := abs_of_nonpos (by omega)
      obtain ⟨m1, m2, m3⟩ := deadzone_mirror dz (-v) h0 h1 (by omega)
      have e : - -v + (32767 : Int) = v + 32767 := by omega
      rw [e] at m1 m2 m3
      refine ⟨_, _, applyDeadzone_below v dz (by omega) hlo hne,
        applyDeadzone_above (-v) dz (by omega) hne, by omega, by omega, ?_⟩
      rw [ha]
      constructor
      · intro h
        exact Or.inr (m3.mp (by omega))
      · rintro (h | h)
        · omega
        · have := m3.mpr h
          omega
    · -- `-dz ≤ v < dz`, both inside the deadzone
      have ha : |v| ≤ dz := abs_le.mpr ⟨hlo, le_of_lt hv⟩
      refine ⟨0, 0, applyDeadzone_inside v dz (by omega) (by omega),
        applyDeadzone_inside (-v) dz (by omega) (by omega), by omega, by omega, ?_⟩
      constructor
      · intro _
        exact Or.inl ha
      · intro _
        omega

/-- C3: for `0 ≤ dz < 32767` the full-scale endpoints map to themselves:
`applyDeadzone 32767 dz = 32767` and `applyDeadzone (-32767) dz = -32767`. -/
theorem applyDeadzone_full_scale (dz : Int) (h0 : 0 ≤ dz) (h1 : dz < 32767) :
    applyDeadzone 32767 dz = Except.ok 32767 ∧
      applyDeadzone (-32767) dz = Except.ok (-32767) := by
  have hne : dz ≠ 32767 := by omega
  have hd : (32767 : Int) - dz ≠ 0 := by omega
  constructor
  · rw [applyDeadzone_above 32767 dz (by omega) hne, Int.mul_tdiv_cancel_left _ hd]
  · rw [applyDeadzone_below (-32767) dz (by omega) (by omega) hne]
    simp

theorem applyDeadzone_full_scale_witness :
    (0 : Int) ≤ 7849 ∧ (7849 : Int) < 32767 ∧ applyDeadzone 32767 7849 = Except.ok 32767 ∧
      applyDeadzone (-32767) 7849 = Except.ok (-32767) :=
  ⟨by decide, by decide, applyDeadzone_full_scale 7849 (by decide) (by decide)⟩

/-- Over the mathematical integers `applyDeadzone` is monotone in its value. -/
theorem applyDeadzone_monotone_int (dz a b : Int) (h0 : 0 ≤ dz) (h1 : dz < 32767) (hab : a ≤ b) :
    ∃ x y, applyDeadzone a dz = Except.ok x ∧ applyDeadzone b dz = Except.ok y ∧ x ≤ y := by
  have hne : dz ≠ 32767 := by omega
  have hd : (0 : Int) < 32767 - dz := by omega
  -- above the deadzone the value is non-negative
  have above_nonneg : ∀ v : Int, dz < v → 0 ≤ ((v - dz) * 32767).tdiv (32767 - dz) := by
    intro v hv
    exact Int.tdiv_nonneg (by nlinarith) (le_of_lt hd)
  -- below the deadzone the value is non-positive
  have below_nonpos : ∀ v : Int, v < -dz →
      ((v + 32767) * 32767).tdiv (32767 - dz) - 32767 ≤ 0 := by
    intro v hv
    have hle : (v + 32767) * 32767 ≤ (32767 - dz) * 32767 := by nlinarith
    have hm := tdiv_mono _ _ _ hle hd
    rw [Int.mul_comm (32767 - dz) 32767, Int.mul_tdiv_cancel _ (ne_of_gt hd)] at hm
    omega
  rcases lt_or_le dz a with ha | ha
  · refine ⟨_, _, applyDeadzone_above a dz ha hne, applyDeadzone_above b dz (by omega) hne, ?_⟩
    exact tdiv_mono _ _ _ (by nlinarith) hd
  · rcases lt_or_le a (-dz) with ha2 | ha2
    · rcases lt_or_le dz b with hb | hb
      · refine ⟨_, _, applyDeadzone_below a dz (by omega) ha2 hne,
          applyDeadzone_above b dz hb hne, ?_⟩
        exact le_trans (below_nonpos a ha2) (above_nonneg b hb)
      · rcases lt_or_le b (-dz) with hb2 | hb2
        · refine ⟨_, _, applyDeadzone_below a dz (by omega) ha2 hne,
            applyDeadzone_below b dz (by omega) hb2 hne, ?_⟩
          have := tdiv_mono ((a + 32767) * 32767) ((b + 32767) * 32767) _ (by nlinarith) hd
          omega
        · exact ⟨_, _, applyDeadzone_below a dz (by omega) ha2 hne,
            applyDeadzone_inside b dz (by omega) (by omega), below_nonpos a ha2⟩
    · rcases lt_or_le dz b with hb | hb
      · exact ⟨_, _, applyDeadzone_inside a dz (by omega) (by omega),
          applyDeadzone_above b dz hb hne, above_nonneg b hb⟩
      · exact ⟨_, _, applyDeadzone_inside a dz (by omega) (by omega),
          applyDeadzone_inside b dz (by omega) (by omega), le_refl 0⟩

/-! ## Trigger deadzone -/

/-- C5: whenever `value ≤ deadzone` (negative values included),
`applyTriggerDeadzone value deadzone` returns `0` without panicking. -/
theorem applyTriggerDeadzone_zero_in_deadzone (value deadzone : Int) (h : value ≤ deadzone) :
    applyTriggerDeadzone value deadzone = Except.ok 0 :=
  applyTriggerDeadzone_inside value deadzone (by omega)

theorem applyTriggerDeadzone_zero_in_deadzone_witness :
    ((30 : Int) ≤ 30 ∧ applyTriggerDeadzone 30 30 = Except.ok 0) ∧
    ((0 : Int) ≤ 30 ∧ applyTriggerDeadzone 0 30 = Except.ok 0) ∧
    ((-5 : Int) ≤ 30 ∧ applyTriggerDeadzone (-5) 30 = Except.ok 0) :=
  ⟨⟨by decide, applyTriggerDeadzone_zero_in_deadzone 30 30 (by decide)⟩,
    ⟨by decide, applyTriggerDeadzone_zero_in_deadzone 0 30 (by decide)⟩,
    ⟨by decide, applyTriggerDeadzone_zero_in_deadzone (-5) 30 (by decide)⟩⟩

/-- C6: for `0 ≤ dz < 255` and a raw trigger value `0 ≤ v ≤ 255`,
`applyTriggerDeadzone v dz` returns a value in `[0, 255]`, and
`applyTriggerDeadzone 255 dz = 255`. -/
theorem applyTriggerDeadzone_range (dz v : Int) (h0 : 0 ≤ dz) (h1 : dz < 255)
    (_hv0 : 0 ≤ v) (hv1 : v ≤ 255) :
    (∃ r, applyTriggerDeadzone v dz = Except.ok r ∧ 0 ≤ r ∧ r ≤ 255) ∧
      applyTriggerDeadzone 255 dz = Except.ok 255 := by
  have hne : dz ≠ 255 := by omega
  have hd : (0 : Int) < 255 - dz := by omega
  constructor
  · rcases lt_or_le dz v with hv | hv
    · refine ⟨_, applyTriggerDeadzone_above v dz hv hne, ?_, ?_⟩
      · exact Int.tdiv_nonneg (by nlinarith) (le_of_lt hd)
      · have hle : (v - dz) * 255 ≤ (255 - dz) * 255 := by nlinarith
        have hm := tdiv_mono _ _ _ hle hd
        rw [Int.mul_comm (255 - dz) 255, Int.mul_tdiv_cancel _ (ne_of_gt hd)] at hm
        exact hm
    · exact ⟨0, applyTriggerDeadzone_inside v dz (by omega), le_refl 0, by decide⟩
  · rw [applyTriggerDeadzone_above 255 dz (by omega) hne,
      Int.mul_tdiv_cancel_left _ (ne_of_gt hd)]

theorem applyTriggerDeadzone_range_witness :
    (0 : Int) ≤ 30 ∧ (30 : Int) < 255 ∧ (0 : Int) ≤ 200 ∧ (200 : Int) ≤ 255 ∧
    (∃ r, applyTriggerDeadzone 200 30 = Except.ok r ∧ 0 ≤ r ∧ r ≤ 255) ∧
      applyTriggerDeadzone 255 30 = Except.ok 255 :=
  ⟨by decide, by decide, by decide, by decide,
    applyTriggerDeadzone_range 30 200 (by decide) (by decide) (by decide) (by decide)⟩

/-! ## Rescaling -/

/-- C7: `scaleValue` panics if and only if `srcMax = srcMin`; for every other
argument tuple it returns a value. -/
theorem scaleValue_panics_iff (value srcMin srcMax tgtMin tgtMax : Int) :
    ((∃ msg, scaleValue value srcMin srcMax tgtMin tgtMax = Except.error msg) ↔
        srcMax = srcMin) ∧
    ((∃ r, scaleValue value srcMin srcMax tgtMin tgtMax = Except.ok r) ↔
        srcMax ≠ srcMin) := by
  by_cases h : srcMax = srcMin
  · rw [scaleValue_of_eq value srcMin srcMax tgtMin tgtMax h]
    refine ⟨⟨fun _ => h, fun _ => ⟨_, rfl⟩⟩, ⟨?_, fun hn => absurd h hn⟩⟩
    rintro ⟨r, hr⟩
    cases hr
  · rw [scaleValue_of_ne value srcMin srcMax tgtMin tgtMax h]
    refine ⟨⟨?_, fun he => absurd he h⟩, ⟨fun _ => h, fun _ => ⟨_, rfl⟩⟩⟩
    rintro ⟨msg, hm⟩
    cases hm

/-! ## Reading a snapshot -/

/-- C9: on the successful path (return code `0`) of `Read`, for a snapshot whose
fields are in the range of their types, `Read` returns no error, the returned
`Buttons` is the button bitmask of the snapshot unchanged, and `AxisData` is exactly
the six values `applyDeadzone ThumbLX 7849`, `applyDeadzone ThumbLY 7849`,
`applyDeadzone ThumbRX 8689`, `applyDeadzone ThumbRY 8689`,
`applyTriggerDeadzone LeftTrigger 30`, `applyTriggerDeadzone RightTrigger 30`,
in this order. -/
theorem Read_success (js : joystickImpl) (st : XInputState) (hwf : st.wf) :
    ∃ lx ly rx ry lt rt : Int,
      applyDeadzone st.Gamepad.ThumbLX 7849 = Except.ok lx ∧
      applyDeadzone st.Gamepad.ThumbLY 7849 = Except.ok ly ∧
      applyDeadzone st.Gamepad.ThumbRX 8689 = Except.ok rx ∧
      applyDeadzone st.Gamepad.ThumbRY 8689 = Except.ok ry ∧
      applyTriggerDeadzone (st.Gamepad.LeftTrigger : Int) 30 = Except.ok lt ∧
      applyTriggerDeadzone (st.Gamepad.RightTrigger : Int) 30 = Except.ok rt ∧
      Read js 0 st = Except.ok
        (⟨js.id, js.axisCount, js.buttonCount, st, js.button, js.axes⟩,
          ⟨st.Gamepad.Buttons, [lx, ly, rx, ry, lt, rt]⟩, none) := by
  obtain ⟨lx, hlx⟩ := applyDeadzone_returns st.Gamepad.ThumbLX 7849 (by decide)
  obtain ⟨ly, hly⟩ := applyDeadzone_returns st.Gamepad.ThumbLY 7849 (by decide)
  obtain ⟨rx, hrx⟩ := applyDeadzone_returns st.Gamepad.ThumbRX 8689 (by decide)
  obtain ⟨ry, hry⟩ := applyDeadzone_returns st.Gamepad.ThumbRY 8689 (by decide)
  obtain ⟨lt, hlt⟩ := applyTriggerDeadzone_returns (st.Gamepad.LeftTrigger : Int) 30 (by decide)
  obtain ⟨rt, hrt⟩ := applyTriggerDeadzone_returns (st.Gamepad.RightTrigger : Int) 30 (by decide)
  refine ⟨lx, ly, rx, ry, lt, rt, hlx, hly, hrx, hry, hlt, hrt, ?_⟩
  have hb : st.Gamepad.Buttons % 2 ^ 32 = st.Gamepad.Buttons := by
    have := hwf.2.1
    omega
  simp only [Read, XINPUT_DEADZONE_LEFT_THUMB, XINPUT_DEADZONE_RIGHT_THUMB,
    XINPUT_DEADZONE_TRIGGER, hlx, hly, hrx, hry, hlt, hrt, hb, bind, Except.bind]
  simp

theorem Read_success_witness :
    XInputState.wf ⟨5, ⟨4096, 200, 31, 7850, -7850, 32767, -32768⟩⟩ ∧
    ∃ lx ly rx ry lt rt : Int,
      applyDeadzone 7850 7849 = Except.ok lx ∧
      applyDeadzone (-7850) 7849 = Except.ok ly ∧
      applyDeadzone 32767 8689 = Except.ok rx ∧
      applyDeadzone (-32768) 8689 = Except.ok ry ∧
      applyTriggerDeadzone ((200 : Nat) : Int) 30 = Except.ok lt ∧
      applyTriggerDeadzone ((31 : Nat) : Int) 30 = Except.ok rt ∧
      Read ⟨1, 6, 16, ⟨0, ⟨0, 0, 0, 0, 0, 0, 0⟩⟩, 0, []⟩ 0
          ⟨5, ⟨4096, 200, 31, 7850, -7850, 32767, -32768⟩⟩ = Except.ok
        (⟨1, 6, 16, ⟨5, ⟨4096, 200, 31, 7850, -7850, 32767, -32768⟩⟩, 0, []⟩,
          ⟨4096, [lx, ly, rx, ry, lt, rt]⟩, none) :=
  ⟨by decide, Read_success ⟨1, 6, 16, ⟨0, ⟨0, 0, 0, 0, 0, 0, 0⟩⟩, 0, []⟩
    ⟨5, ⟨4096, 200, 31, 7850, -7850, 32767, -32768⟩⟩ (by decide)⟩

/-- C10: the zero-width-range panic is unreachable with the fixed deadzone
constants `7849`, `8689` and `30`: for every integer `v` the three calls return;
more generally `applyDeadzone v dz` returns whenever `dz ≠ 32767` and
`applyTriggerDeadzone v dz` returns whenever `dz ≠ 255`. -/
theorem deadzone_never_panics :
    (XINPUT_DEADZONE_LEFT_THUMB = 7849 ∧ XINPUT_DEADZONE_RIGHT_THUMB = 8689 ∧
      XINPUT_DEADZONE_TRIGGER = 30) ∧
    (∀ v : Int, ∃ r, applyDeadzone v 7849 = Except.ok r) ∧
    (∀ v : Int, ∃ r, applyDeadzone v 8689 = Except.ok r) ∧
    (∀ v : Int, ∃ r, applyTriggerDeadzone v 30 = Except.ok r) ∧
    (∀ v dz : Int, dz ≠ 32767 → ∃ r, applyDeadzone v dz = Except.ok r) ∧
    (∀ v dz : Int, dz ≠ 255 → ∃ r, applyTriggerDeadzone v dz = Except.ok r) := by
  refine ⟨⟨rfl, rfl, rfl⟩, fun v => applyDeadzone_returns v 7849 (by decide),
    fun v => applyDeadzone_returns v 8689 (by decide),
    fun v => applyTriggerDeadzone_returns v 30 (by decide),
    applyDeadzone_returns, applyTriggerDeadzone_returns⟩

theorem deadzone_never_panics_witness :
    ((0 : Int) ≠ 32767 ∧ ∃ r, applyDeadzone 40000 0 = Except.ok r) ∧
    ((254 : Int) ≠ 255 ∧ ∃ r, applyTriggerDeadzone 255 254 = Except.ok r) :=
  ⟨⟨by decide, deadzone_never_panics.2.2.2.2.1 40000 0 (by decide)⟩,
    ⟨by decide, deadzone_never_panics.2.2.2.2.2 255 254 (by decide)⟩⟩

/-! ## Range and sign of the normalized stick value -/

/-- Over the mathematical integers the result of `applyDeadzone` has the sign of
the part of its value outside the deadzone. -/
theorem applyDeadzone_sign_int (dz v : Int) (h0 : 0 ≤ dz) (h1 : dz < 32767) :
    (∃ r, applyDeadzone v dz = Except.ok r ∧ (v > dz → r > 0) ∧ (v < -dz → r < 0) ∧
      (r = 0 ↔ |v| ≤ dz)) ∧
    applyDeadzone 7850 7849 = Except.ok 1 := by
  have hne : dz ≠ 32767 := by omega
  refine ⟨?_, by decide⟩
  rcases lt_or_le dz v with hv | hv
  · have a1 := above_pos dz v h0 h1 hv
    refine ⟨_, applyDeadzone_above v dz hv hne, fun _ => by omega, fun hlt => by omega, ?_⟩
    constructor
    · intro hz
      omega
    · intro habs
      have := (abs_le.mp habs).2
      omega
  · rcases lt_or_le v (-dz) with hv2 | hv2
    · have b1 := below_neg dz v h1 hv2
      refine ⟨_, applyDeadzone_below v dz (by omega) hv2 hne, fun hgt => by omega,
        fun _ => by omega, ?_⟩
      constructor
      · intro hz
        omega
      · intro habs
        have := (abs_le.mp habs).1
        omega
    · refine ⟨0, applyDeadzone_inside v dz (by omega) (by omega), fun hgt => by omega,
        fun hlt => by omega, ?_⟩
      constructor
      · intro _
        exact abs_le.mpr ⟨hv2, hv⟩
      · intro _
        rfl

/-- The result of `Read` on the successful path, given the six axis values. -/
theorem Read_of_axes (js : joystickImpl) (st : XInputState) (lx ly rx ry lt rt : Int)
    (hlx : applyDeadzone st.Gamepad.ThumbLX 7849 = Except.ok lx)
    (hly : applyDeadzone st.Gamepad.ThumbLY 7849 = Except.ok ly)
    (hrx : applyDeadzone st.Gamepad.ThumbRX 8689 = Except.ok rx)
    (hry : applyDeadzone st.Gamepad.ThumbRY 8689 = Except.ok ry)
    (hlt : applyTriggerDeadzone (st.Gamepad.LeftTrigger : Int) 30 = Except.ok lt)
    (hrt : applyTriggerDeadzone (st.Gamepad.RightTrigger : Int) 30 = Except.ok rt) :
    Read js 0 st = Except.ok
      (⟨js.id, js.axisCount, js.buttonCount, st, js.button, js.axes⟩,
        ⟨st.Gamepad.Buttons % 2 ^ 32, [lx, ly, rx, ry, lt, rt]⟩, none) := by
  simp only [Read, XINPUT_DEADZONE_LEFT_THUMB, XINPUT_DEADZONE_RIGHT_THUMB,
    XINPUT_DEADZONE_TRIGGER, hlx, hly, hrx, hry, hlt, hrt, bind, Except.bind]
  simp

/-- C14: for every snapshot whose fields are in the range of their types
(`int16` sticks, `uint8` triggers), `Read` with the fixed deadzones `7849`, `8689`
and `30` returns six axis values of which the four stick values lie in
`[-32768, 32767]` and the two trigger values lie in `[0, 255]`. -/
theorem Read_axes_in_range (js : joystickImpl) (st : XInputState) (hwf : st.wf) :
    ∃ lx ly rx ry lt rt : Int,
      Read js 0 st = Except.ok
        (⟨js.id, js.axisCount, js.buttonCount, st, js.button, js.axes⟩,
          ⟨st.Gamepad.Buttons, [lx, ly, rx, ry, lt, rt]⟩, none) ∧
      (-32768 ≤ lx ∧ lx ≤ 32767) ∧ (-32768 ≤ ly ∧ ly ≤ 32767) ∧
      (-32768 ≤ rx ∧ rx ≤ 32767) ∧ (-32768 ≤ ry ∧ ry ≤ 32767) ∧
      (0 ≤ lt ∧ lt ≤ 255) ∧ (0 ≤ rt ∧ rt ≤ 255) := by
  obtain ⟨_, hb, hl, hr, ⟨x0, x1⟩, ⟨y0, y1⟩, ⟨z0, z1⟩, ⟨w0, w1⟩⟩ := hwf
  obtain ⟨lx, hlx, blx⟩ := applyDeadzone_bounds st.Gamepad.ThumbLX 7849 (by omega) (by omega)
    (by decide) (by decide) (Or.inr (by decide))
  obtain ⟨ly, hly, bly⟩ := applyDeadzone_bounds st.Gamepad.ThumbLY 7849 (by omega) (by omega)
    (by decide) (by decide) (Or.inr (by decide))
  obtain ⟨rx, hrx, brx⟩ := applyDeadzone_bounds st.Gamepad.ThumbRX 8689 (by omega) (by omega)
    (by decide) (by decide) (Or.inr (by decide))
  obtain ⟨ry, hry, bry⟩ := applyDeadzone_bounds st.Gamepad.ThumbRY 8689 (by omega) (by omega)
    (by decide) (by decide) (Or.inr (by decide))
  obtain ⟨lt, hlt, blt⟩ := applyTriggerDeadzone_bounds (st.Gamepad.LeftTrigger : Int) 30
    (by omega) (by decide) (by decide)
  obtain ⟨rt, hrt, brt⟩ := applyTriggerDeadzone_bounds (st.Gamepad.RightTrigger : Int) 30
    (by omega) (by decide) (by decide)
  refine ⟨lx, ly, rx, ry, lt, rt, ?_, blx, bly, brx, bry, blt, brt⟩
  have hbm : st.Gamepad.Buttons % 2 ^ 32 = st.Gamepad.Buttons := by omega
  rw [Read_of_axes js st lx ly rx ry lt rt hlx hly hrx hry hlt hrt, hbm]

theorem Read_axes_in_range_witness :
    XInputState.wf ⟨7, ⟨1, 255, 0, -32768, 32767, -8690, 8689⟩⟩ ∧
    ∃ lx ly rx ry lt rt : Int,
      Read ⟨0, 6, 16, ⟨0, ⟨0, 0, 0, 0, 0, 0, 0⟩⟩, 0, []⟩ 0
          ⟨7, ⟨1, 255, 0, -32768, 32767, -8690, 8689⟩⟩ = Except.ok
        (⟨0, 6, 16, ⟨7, ⟨1, 255, 0, -32768, 32767, -8690, 8689⟩⟩, 0, []⟩,
          ⟨1, [lx, ly, rx, ry, lt, rt]⟩, none) ∧
      (-32768 ≤ lx ∧ lx ≤ 32767) ∧ (-32768 ≤ ly ∧ ly ≤ 32767) ∧
      (-32768 ≤ rx ∧ rx ≤ 32767) ∧ (-32768 ≤ ry ∧ ry ≤ 32767) ∧
      (0 ≤ lt ∧ lt ≤ 255) ∧ (0 ≤ rt ∧ rt ≤ 255) :=
  ⟨by decide, Read_axes_in_range ⟨0, 6, 16, ⟨0, ⟨0, 0, 0, 0, 0, 0, 0⟩⟩, 0, []⟩
    ⟨7, ⟨1, 255, 0, -32768, 32767, -8690, 8689⟩⟩ (by decide)⟩

/-! ## Opening a joystick -/

/-- C17: `Open id` returns an error, and then no joystick, if and only if
`id < 0` or `id > 3`; for `0 ≤ id ≤ 3` it returns a joystick and no error, and
the joystick has `AxisCount` 6, which is the number of entries that `Read` puts
in `AxisData`, and `ButtonCount` 16. -/
theorem Open_spec (id : Int) :
    ((Open id).2 ≠ none ↔ id < 0 ∨ id > 3) ∧
    ((Open id).2 ≠ none → (Open id).1 = none) ∧
    (0 ≤ id → id ≤ 3 →
      ∃ js, Open id = (some js, none) ∧ js.AxisCount = 6 ∧ js.ButtonCount = 16 ∧
        ∀ st : XInputState, ∃ js1 s, Read js 0 st = Except.ok (js1, s, none) ∧
          (s.AxisData.length : Int) = js.AxisCount) := by
  by_cases h : id < 0 ∨ id > 3
  · refine ⟨?_, ?_, ?_⟩
    · simp only [Open, if_pos h]
      exact ⟨fun _ => h, fun _ => by simp⟩
    · intro _
      simp only [Open, if_pos h]
    · intro h0 h3
      omega
  · refine ⟨?_, ?_, ?_⟩
    · simp only [Open, if_neg h]
      exact ⟨fun hne => absurd rfl hne, fun hc => absurd hc h⟩
    · intro hne
      simp only [Open, if_neg h] at hne
      exact absurd rfl hne
    · intro _ _
      refine ⟨⟨id, 6, 16, ⟨0, ⟨0, 0, 0, 0, 0, 0, 0⟩⟩, 0, []⟩, ?_, rfl, rfl, ?_⟩
      · simp only [Open, if_neg h]
      intro st
      obtain ⟨lx, hlx⟩ := applyDeadzone_returns st.Gamepad.ThumbLX 7849 (by decide)
      obtain ⟨ly, hly⟩ := applyDeadzone_returns st.Gamepad.ThumbLY 7849 (by decide)
      obtain ⟨rx, hrx⟩ := applyDeadzone_returns st.Gamepad.ThumbRX 8689 (by decide)
      obtain ⟨ry, hry⟩ := applyDeadzone_returns st.Gamepad.ThumbRY 8689 (by decide)
      obtain ⟨lt, hlt⟩ :=
        applyTriggerDeadzone_returns (st.Gamepad.LeftTrigger : Int) 30 (by decide)
      obtain ⟨rt, hrt⟩ :=
        applyTriggerDeadzone_returns (st.Gamepad.RightTrigger : Int) 30 (by decide)
      exact ⟨_, _, Read_of_axes _ st lx ly rx ry lt rt hlx hly hrx hry hlt hrt, rfl⟩

theorem Open_spec_witness :
    ((Open 4).2 ≠ none ∧ (Open 4).1 = none) ∧
    ((0 : Int) ≤ 3 ∧ (3 : Int) ≤ 3 ∧
      ∃ js, Open 3 = (some js, none) ∧ js.AxisCount = 6 ∧ js.ButtonCount = 16 ∧
        ∀ st : XInputState, ∃ js1 s, Read js 0 st = Except.ok (js1, s, none) ∧
          (s.AxisData.length : Int) = js.AxisCount) :=
  ⟨⟨((Open_spec 4).1).mpr (Or.inr (by decide)),
      (Open_spec 4).2.1 (((Open_spec 4).1).mpr (Or.inr (by decide)))⟩,
    by decide, by decide, (Open_spec 3).2.2 (by decide) (by decide)⟩

/-! ## The exact linear map -/

theorem ediv_cast_bounds (n d : Int) (hd : 0 < d) :
    (((n / d : Int) : ℚ) ≤ (n : ℚ) / (d : ℚ)) ∧ ((n : ℚ) / (d : ℚ) < ((n / d : Int) : ℚ) + 1) := by
  have hdq : (0 : ℚ) < (d : ℚ) := by exact_mod_cast hd
  have l1 : n / d * d ≤ n := Int.ediv_mul_le n (ne_of_gt hd)
  have l2 : n < (n / d + 1) * d := Int.lt_ediv_add_one_mul_self n hd
  have q1 : ((n / d : Int) : ℚ) * (d : ℚ) ≤ (n : ℚ) := by exact_mod_cast l1
  have q2 : (n : ℚ) < (((n / d : Int) : ℚ) + 1) * (d : ℚ) := by exact_mod_cast l2
  exact ⟨(le_div_iff₀ hdq).mpr q1, (div_lt_iff₀ hdq).mpr q2⟩

theorem deadzoneLine_above (v dz : Int) (hv : v > dz) :
    deadzoneLine v dz = (((v - dz) * 32767 : Int) : ℚ) / ((32767 - dz : Int) : ℚ) := by
  simp only [deadzoneLine, if_pos hv, lineThrough]
  push_cast
  ring

theorem deadzoneLine_below (v dz : Int) (hv : ¬ v > dz) :
    deadzoneLine v dz =
      (((v + 32767) * 32767 : Int) : ℚ) / ((32767 - dz : Int) : ℚ) - 32767 := by
  simp only [deadzoneLine, if_neg hv, lineThrough]
  push_cast
  ring

/-- C15: for `0 ≤ dz < 32767` and `dz < |v| ≤ 32767`, `applyDeadzone v dz` returns
the floor of the exact rational value `L(v)` of the line through `(dz, 0)` and
`(32767, 32767)` (for `v > dz`) or through `(-32767, -32767)` and `(-dz, 0)` (for
`v < -dz`): `0 ≤ L(v) - applyDeadzone v dz < 1` on both sides. -/
theorem applyDeadzone_floor_of_line (dz v : Int) (h0 : 0 ≤ dz) (h1 : dz < 32767)
    (hv : dz < |v|) (hv1 : |v| ≤ 32767) :
    ∃ r, applyDeadzone v dz = Except.ok r ∧ r = ⌊deadzoneLine v dz⌋ ∧
      0 ≤ deadzoneLine v dz - (r : ℚ) ∧ deadzoneLine v dz - (r : ℚ) < 1 := by
  have hne : dz ≠ 32767 := by omega
  have hd : (0 : Int) < 32767 - dz := by omega
  obtain ⟨hlo, hhi⟩ := abs_le.mp hv1
  rcases lt_or_le dz v with hpos | hpos
  · have hN : 0 ≤ (v - dz) * 32767 := by nlinarith
    obtain ⟨b1, b2⟩ := ediv_cast_bounds ((v - dz) * 32767) (32767 - dz) hd
    refine ⟨_, applyDeadzone_above v dz hpos hne, ?_, ?_, ?_⟩
    · rw [tdiv_of_nonneg _ _ hN hd, deadzoneLine_above v dz hpos]
      exact (Int.floor_eq_iff.mpr ⟨b1, b2⟩).symm
    · rw [tdiv_of_nonneg _ _ hN hd, deadzoneLine_above v dz hpos]
      linarith
    · rw [tdiv_of_nonneg _ _ hN hd, deadzoneLine_above v dz hpos]
      linarith
  · have hneg : v < -dz := by
      rcases abs_cases v with ⟨e, _⟩ | ⟨e, _⟩
      · omega
      · omega
    have hN : 0 ≤ (v + 32767) * 32767 := by nlinarith
    obtain ⟨b1, b2⟩ := ediv_cast_bounds ((v + 32767) * 32767) (32767 - dz) hd
    have hnp : ¬ v > dz := by omega
    refine ⟨_, applyDeadzone_below v dz hnp hneg hne, ?_, ?_, ?_⟩
    · rw [tdiv_of_nonneg _ _ hN hd, deadzoneLine_below v dz hnp]
      refine (Int.floor_eq_iff.mpr ⟨?_, ?_⟩).symm
      · push_cast
        push_cast at b1
        linarith
      · push_cast
        push_cast at b2
        linarith
    · rw [tdiv_of_nonneg _ _ hN hd, deadzoneLine_below v dz hnp]
      push_cast
      push_cast at b1
      linarith
    · rw [tdiv_of_nonneg _ _ hN hd, deadzoneLine_below v dz hnp]
      push_cast
      push_cast at b2
      linarith

theorem applyDeadzone_floor_of_line_witness :
    (0 : Int) ≤ 7849 ∧ (7849 : Int) < 32767 ∧ (7849 : Int) < |(-7850 : Int)| ∧
    |(-7850 : Int)| ≤ 32767 ∧
    ∃ r, applyDeadzone (-7850) 7849 = Except.ok r ∧ r = ⌊deadzoneLine (-7850) 7849⌋ ∧
      0 ≤ deadzoneLine (-7850) 7849 - (r : ℚ) ∧ deadzoneLine (-7850) 7849 - (r : ℚ) < 1 :=
  ⟨by decide, by decide, by decide, by decide,
    applyDeadzone_floor_of_line 7849 (-7850) (by decide) (by decide) (by decide) (by decide)⟩

/-! ## The arguments passed to `scaleValue` -/

theorem applyDeadzone_eq_call (v dz : Int) :
    applyDeadzone v dz = resultOfCall (applyDeadzoneCall v dz) := by
  unfold applyDeadzone applyDeadzoneCall resultOfCall ScaleCall.run
  split_ifs <;> rfl

theorem applyTriggerDeadzone_eq_call (v dz : Int) :
    applyTriggerDeadzone v dz = resultOfCall (applyTriggerDeadzoneCall v dz) := by
  unfold applyTriggerDeadzone applyTriggerDeadzoneCall resultOfCall ScaleCall.run
  split_ifs <;> rfl

/-- Apart from the raw stick value `-32768`, every call of `scaleValue` passes a
value inside the source range. -/
theorem call_value_in_range (v dz : Int) :
    (-32767 ≤ v → v ≤ 32767 → ∀ c, applyDeadzoneCall v dz = some c →
      c.srcMin ≤ c.value ∧ c.value ≤ c.srcMax) ∧
    (v ≤ 255 → ∀ c, applyTriggerDeadzoneCall v dz = some c →
      c.srcMin ≤ c.value ∧ c.value ≤ c.srcMax) := by
  constructor
  · intro hlo hhi c hc
    unfold applyDeadzoneCall at hc
    split_ifs at hc with g1 g2
    · injection hc with hc
      subst hc
      exact ⟨by show dz ≤ v; omega, hhi⟩
    · injection hc with hc
      subst hc
      exact ⟨hlo, by show v ≤ -dz; omega⟩
  · intro hhi c hc
    unfold applyTriggerDeadzoneCall at hc
    split_ifs at hc with g1
    injection hc with hc
    subst hc
    exact ⟨by show dz ≤ v; omega, hhi⟩

/-- C12, at the failing input: for the raw stick value `-32768` and either fixed
stick deadzone, `applyDeadzone` calls `scaleValue` with `value = -32768` and
`srcMin = -32767`, so `srcMin ≤ value` does not hold; the call returns `-32768`,
below its target range `[-32767, 0]`. -/
theorem applyDeadzone_call_below_srcMin :
    (XINPUT_DEADZONE_LEFT_THUMB = 7849 ∧ XINPUT_DEADZONE_RIGHT_THUMB = 8689) ∧
    applyDeadzoneCall (-32768) 7849 = some ⟨-32768, -32767, -7849, -32767, 0⟩ ∧
    applyDeadzoneCall (-32768) 8689 = some ⟨-32768, -32767, -8689, -32767, 0⟩ ∧
    applyDeadzone (-32768) 7849 = resultOfCall (applyDeadzoneCall (-32768) 7849) ∧
    applyDeadzone (-32768) 8689 = resultOfCall (applyDeadzoneCall (-32768) 8689) ∧
    applyDeadzone (-32768) 7849 = Except.ok (-32768) ∧
    applyDeadzone (-32768) 8689 = Except.ok (-32768) ∧
    ¬ (∀ v dz : Int, -32768 ≤ v → v ≤ 32767 → (dz = 7849 ∨ dz = 8689) →
        ∀ c, applyDeadzoneCall v dz = some c → c.srcMin ≤ c.value ∧ c.value ≤ c.srcMax) := by
  refine ⟨⟨rfl, rfl⟩, by decide, by decide, by decide, by decide, by decide, by decide, ?_⟩
  intro h
  have := (h (-32768) 7849 (by decide) (by decide) (Or.inl rfl)
    ⟨-32768, -32767, -7849, -32767, 0⟩ (by decide)).1
  exact absurd this (by decide)

/-! ## Absence of overflow -/

theorem two_pow_width (w : Nat) (hw : 32 ≤ w) :
    (2 : Int) ^ w = 2 * 2 ^ (w - 1) ∧ (2 : Int) ^ 31 ≤ 2 ^ (w - 1) := by
  constructor
  · have e : w = (w - 1) + 1 := by omega
    conv_lhs => rw [e]
    rw [pow_succ]
    ring
  · exact pow_le_pow_right₀ (by decide) (by omega)

theorem wrapInt_of_small (w : Nat) (hw : 32 ≤ w) (x : Int) (hlo : -(2 ^ 31) ≤ x)
    (hhi : x < 2 ^ 31) : wrapInt w x = x := by
  obtain ⟨e, hp⟩ := two_pow_width w hw
  unfold wrapInt
  rw [e, Int.emod_eq_of_lt (by omega) (by omega)]
  omega

theorem scaleValueW_eq (w : Nat) (hw : 32 ≤ w) (value srcMin srcMax tgtMin tgtMax : Int)
    (b1 : -(2 ^ 31) ≤ srcMax - srcMin ∧ srcMax - srcMin < 2 ^ 31)
    (b2 : -(2 ^ 31) ≤ tgtMax - tgtMin ∧ tgtMax - tgtMin < 2 ^ 31)
    (b3 : -(2 ^ 31) ≤ value - srcMin ∧ value - srcMin < 2 ^ 31)
    (b4 : -(2 ^ 31) ≤ (value - srcMin) * (tgtMax - tgtMin) ∧
      (value - srcMin) * (tgtMax - tgtMin) < 2 ^ 31)
    (b5 : -(2 ^ 31) ≤ ((value - srcMin) * (tgtMax - tgtMin)).tdiv (srcMax - srcMin) ∧
      ((value - srcMin) * (tgtMax - tgtMin)).tdiv (srcMax - srcMin) < 2 ^ 31)
    (b6 : -(2 ^ 31) ≤ ((value - srcMin) * (tgtMax - tgtMin)).tdiv (srcMax - srcMin) + tgtMin ∧
      ((value - srcMin) * (tgtMax - tgtMin)).tdiv (srcMax - srcMin) + tgtMin < 2 ^ 31) :
    scaleValueW w value srcMin srcMax tgtMin tgtMax =
      scaleValue value srcMin srcMax tgtMin tgtMax := by
  unfold scaleValueW scaleValue
  simp only [wrapInt_of_small w hw _ b1.1 b1.2, wrapInt_of_small w hw _ b2.1 b2.2,
    wrapInt_of_small w hw _ b3.1 b3.2, wrapInt_of_small w hw _ b4.1 b4.2,
    wrapInt_of_small w hw _ b5.1 b5.2, wrapInt_of_small w hw _ b6.1 b6.2]

theorem stick_above_no_overflow (w : Nat) (hw : 32 ≤ w) (v dz : Int) (hv1 : v ≤ 32767)
    (h0 : 0 ≤ dz) (h1 : dz < 32767) (hv : dz < v) :
    |(v - dz) * (32767 - 0)| ≤ 32767 * 32767 ∧
    scaleValueW w v dz 32767 0 32767 = scaleValue v dz 32767 0 32767 := by
  have p1 : 0 ≤ (v - dz) * (32767 - 0) := by nlinarith
  have p2 : (v - dz) * (32767 - 0) ≤ 32767 * 32767 := by nlinarith
  have e : ((v - dz) * (32767 - 0)).tdiv (32767 - dz) = ((v - dz) * 32767).tdiv (32767 - dz) := by
    simp
  have a1 := above_pos dz v h0 h1 hv
  have a2 := above_le dz v h1 hv1
  refine ⟨abs_le.mpr ⟨by omega, p2⟩, ?_⟩
  apply scaleValueW_eq w hw
  · constructor <;> omega
  · constructor <;> omega
  · constructor <;> omega
  · constructor <;> omega
  · rw [e]
    constructor <;> omega
  · rw [e]
    constructor <;> omega

theorem stick_below_no_overflow (w : Nat) (hw : 32 ≤ w) (v dz : Int) (hv0 : -32768 ≤ v)
    (h0 : 0 ≤ dz) (h1 : dz < 32767) (hv : v < -dz) :
    |(v - -32767) * (0 - -32767)| ≤ 32767 * 32767 ∧
    scaleValueW w v (-32767) (-dz) (-32767) 0 = scaleValue v (-32767) (-dz) (-32767) 0 := by
  have hd : (0 : Int) < 32767 - dz := by omega
  have p1 : -32767 ≤ (v - -32767) * (0 - -32767) := by nlinarith
  have p2 : (v - -32767) * (0 - -32767) ≤ 32767 * 32767 := by nlinarith
  have e : ((v - -32767) * (0 - -32767)).tdiv (-dz - -32767) =
      ((v + 32767) * 32767).tdiv (32767 - dz) := by
    have e1 : v - (-32767 : Int) = v + 32767 := by omega
    have e2 : (0 : Int) - (-32767) = 32767 := by omega
    have e3 : -dz - (-32767 : Int) = 32767 - dz := by omega
    rw [e1, e2, e3]
  have a1 := below_neg dz v h1 hv
  have a2 : -32767 ≤ ((v + 32767) * 32767).tdiv (32767 - dz) := by
    have hle : (-32767 : Int) * (32767 - dz) ≤ (v + 32767) * 32767 := by nlinarith
    have hm := tdiv_mono _ _ _ hle hd
    rw [Int.mul_tdiv_cancel _ (ne_of_gt hd)] at hm
    exact hm
  refine ⟨abs_le.mpr ⟨by omega, p2⟩, ?_⟩
  apply scaleValueW_eq w hw
  · constructor <;> omega
  · constructor <;> omega
  · constructor <;> omega
  · constructor <;> omega
  · rw [e]
    constructor <;> omega
  · rw [e]
    constructor <;> omega

theorem trigger_no_overflow (w : Nat) (hw : 32 ≤ w) (v dz : Int) (hv1 : v ≤ 255)
    (h0 : 0 ≤ dz) (h1 : dz < 255) (hv : dz < v) :
    |(v - dz) * (255 - 0)| ≤ 32767 * 32767 ∧
    scaleValueW w v dz 255 0 255 = scaleValue v dz 255 0 255 := by
  have p1 : 0 ≤ (v - dz) * (255 - 0) := by nlinarith
  have p2 : (v - dz) * (255 - 0) ≤ 255 * 255 := by nlinarith
  have e : ((v - dz) * (255 - 0)).tdiv (255 - dz) = ((v - dz) * 255).tdiv (255 - dz) := by
    simp
  obtain ⟨a1, a2⟩ := trigger_above_bounds dz v h0 h1 hv hv1
  refine ⟨abs_le.mpr ⟨by omega, by omega⟩, ?_⟩
  apply scaleValueW_eq w hw
  · constructor <;> omega
  · constructor <;> omega
  · constructor <;> omega
  · constructor <;> omega
  · rw [e]
    constructor <;> omega
  · rw [e]
    constructor <;> omega

/-- C16: on in-range input (`v` in `[-32768, 32767]` with `0 ≤ dz < 32767` for the
sticks, `v` in `[0, 255]` with `0 ≤ dz < 255` for the triggers) the product
`(value - srcMin) * (tgtMax - tgtMin)` formed inside `scaleValue` has absolute
value at most `32767 * 32767 < 2 ^ 31`, and evaluating with wrapping signed
arithmetic of any width `w ≥ 32`, in particular 32 bits, gives the same result
as with unbounded integers. -/
theorem deadzone_no_overflow (w : Nat) (hw : 32 ≤ w) :
    (32767 * 32767 : Int) < 2 ^ 31 ∧
    (∀ v dz : Int, -32768 ≤ v → v ≤ 32767 → 0 ≤ dz → dz < 32767 →
      (∀ c, applyDeadzoneCall v dz = some c →
        |(c.value - c.srcMin) * (c.tgtMax - c.tgtMin)| ≤ 32767 * 32767 ∧
        scaleValueW w c.value c.srcMin c.srcMax c.tgtMin c.tgtMax = c.run) ∧
      applyDeadzoneW w v dz = applyDeadzone v dz) ∧
    (∀ v dz : Int, 0 ≤ v → v ≤ 255 → 0 ≤ dz → dz < 255 →
      (∀ c, applyTriggerDeadzoneCall v dz = some c →
        |(c.value - c.srcMin) * (c.tgtMax - c.tgtMin)| ≤ 32767 * 32767 ∧
        scaleValueW w c.value c.srcMin c.srcMax c.tgtMin c.tgtMax = c.run) ∧
      applyTriggerDeadzoneW w v dz = applyTriggerDeadzone v dz) := by
  refine ⟨by decide, ?_, ?_⟩
  · intro v dz hv0 hv1 h0 h1
    have hneg : wrapInt w (-dz) = -dz := wrapInt_of_small w hw _ (by omega) (by omega)
    constructor
    · intro c hc
      unfold applyDeadzoneCall at hc
      split_ifs at hc with g1 g2
      · injection hc with hc
        subst hc
        exact stick_above_no_overflow w hw v dz hv1 h0 h1 g1
      · injection hc with hc
        subst hc
        exact stick_below_no_overflow w hw v dz hv0 h0 h1 g2
    · unfold applyDeadzoneW applyDeadzone
      rw [hneg]
      split_ifs with g1 g2
      · exact (stick_above_no_overflow w hw v dz hv1 h0 h1 g1).2
      · exact (stick_below_no_overflow w hw v dz hv0 h0 h1 g2).2
      · rfl
  · intro v dz _ hv1 h0 h1
    constructor
    · intro c hc
      unfold applyTriggerDeadzoneCall at hc
      split_ifs at hc with g1
      injection hc with hc
      subst hc
      exact trigger_no_overflow w hw v dz hv1 h0 h1 g1
    · unfold applyTriggerDeadzoneW applyTriggerDeadzone
      split_ifs with g1
      · exact (trigger_no_overflow w hw v dz hv1 h0 h1 g1).2
      · rfl

theorem deadzone_no_overflow_witness :
    32 ≤ 32 ∧
    ((-32768 : Int) ≤ -32768 ∧ (-32768 : Int) ≤ 32767 ∧ (0 : Int) ≤ 7849 ∧
      (7849 : Int) < 32767 ∧ applyDeadzoneW 32 (-32768) 7849 = applyDeadzone (-32768) 7849) ∧
    ((0 : Int) ≤ 255 ∧ (255 : Int) ≤ 255 ∧ (0 : Int) ≤ 30 ∧ (30 : Int) < 255 ∧
      applyTriggerDeadzoneW 32 255 30 = applyTriggerDeadzone 255 30) :=
  ⟨by decide,
    ⟨by decide, by decide, by decide, by decide,
      ((deadzone_no_overflow 32 (by decide)).2.1 (-32768) 7849 (by decide) (by decide)
        (by decide) (by decide)).2⟩,
    ⟨by decide, by decide, by decide, by decide,
      ((deadzone_no_overflow 32 (by decide)).2.2 255 30 (by decide) (by decide)
        (by decide) (by decide)).2⟩⟩

/-! ## Wrapped and unbounded evaluation -/

theorem two_pow_pred (w : Nat) (hw : 1 ≤ w) :
    (2 : Int) ^ w = 2 * 2 ^ (w - 1) ∧ (0 : Int) < 2 ^ (w - 1) := by
  constructor
  · have e : w = (w - 1) + 1 := by omega
    conv_lhs => rw [e]
    rw [pow_succ]
    ring
  · exact pow_pos (by decide) _

theorem fitsInt_of_small (w : Nat) (hw : 32 ≤ w) (x : Int) (hlo : -(2 ^ 31) ≤ x)
    (hhi : x < 2 ^ 31) : fitsInt w x := by
  have hp := (two_pow_width w hw).2
  unfold fitsInt
  constructor <;> omega

theorem wrapInt_of_fits (w : Nat) (hw : 1 ≤ w) (x : Int) (h : fitsInt w x) :
    wrapInt w x = x := by
  obtain ⟨e, hp⟩ := two_pow_pred w hw
  obtain ⟨h1, h2⟩ := h
  unfold wrapInt
  rw [e, Int.emod_eq_of_lt (by omega) (by omega)]
  omega

theorem wrapInt_sub_ne_zero (w : Nat) (hw : 1 ≤ w) (a b : Int) (ha : fitsInt w a)
    (hb : fitsInt w b) (hab : a ≠ b) : wrapInt w (a - b) ≠ 0 := by
  obtain ⟨e, hp⟩ := two_pow_pred w hw
  obtain ⟨a1, a2⟩ := ha
  obtain ⟨b1, b2⟩ := hb
  intro h
  unfold wrapInt at h
  rw [e] at h
  have hm : (a - b + 2 ^ (w - 1)) % (2 * 2 ^ (w - 1)) = 2 ^ (w - 1) := by omega
  rcases lt_or_le (a - b) (-(2 ^ (w - 1))) with hlo | hlo
  · have e2 : (a - b + 2 ^ (w - 1)) % (2 * 2 ^ (w - 1)) =
        (a - b + 2 ^ (w - 1) + 1 * (2 * 2 ^ (w - 1))) % (2 * 2 ^ (w - 1)) := by
      rw [Int.add_mul_emod_self]
    have e3 : (a - b + 2 ^ (w - 1) + 1 * (2 * 2 ^ (w - 1))) % (2 * 2 ^ (w - 1)) =
        a - b + 2 ^ (w - 1) + 1 * (2 * 2 ^ (w - 1)) :=
      Int.emod_eq_of_lt (by omega) (by omega)
    omega
  · rcases lt_or_le (a - b) (2 ^ (w - 1)) with hhi | hhi
    · have e3 : (a - b + 2 ^ (w - 1)) % (2 * 2 ^ (w - 1)) = a - b + 2 ^ (w - 1) :=
        Int.emod_eq_of_lt (by omega) (by omega)
      exact hab (by omega)
    · have e2 : (a - b + 2 ^ (w - 1)) % (2 * 2 ^ (w - 1)) =
          (a - b + 2 ^ (w - 1) + (-1) * (2 * 2 ^ (w - 1))) % (2 * 2 ^ (w - 1)) := by
        rw [Int.add_mul_emod_self]
      have e3 : (a - b + 2 ^ (w - 1) + (-1) * (2 * 2 ^ (w - 1))) % (2 * 2 ^ (w - 1)) =
          a - b + 2 ^ (w - 1) + (-1) * (2 * 2 ^ (w - 1)) :=
        Int.emod_eq_of_lt (by omega) (by omega)
      omega

theorem scaleValueW_of_fits (w : Nat) (hw : 1 ≤ w) (value srcMin srcMax tgtMin tgtMax : Int)
    (hfit : scaleValueFits w value srcMin srcMax tgtMin tgtMax) :
    scaleValueW w value srcMin srcMax tgtMin tgtMax =
      scaleValue value srcMin srcMax tgtMin tgtMax := by
  obtain ⟨f1, f2, f3, f4, f5, f6⟩ := hfit
  unfold scaleValueW scaleValue
  simp only [wrapInt_of_fits w hw _ f1, wrapInt_of_fits w hw _ f2, wrapInt_of_fits w hw _ f3,
    wrapInt_of_fits w hw _ f4, wrapInt_of_fits w hw _ f5, wrapInt_of_fits w hw _ f6]

theorem applyDeadzoneW_of_raw (w : Nat) (hw : 32 ≤ w) (v dz : Int) (hv0 : -32768 ≤ v)
    (hv1 : v ≤ 32767) (h0 : 0 ≤ dz) (h1 : dz < 32767) :
    applyDeadzoneW w v dz = applyDeadzone v dz := by
  have hneg : wrapInt w (-dz) = -dz := wrapInt_of_small w hw _ (by omega) (by omega)
  unfold applyDeadzoneW applyDeadzone
  rw [hneg]
  split_ifs with g1 g2
  · exact (stick_above_no_overflow w hw v dz hv1 h0 h1 g1).2
  · exact (stick_below_no_overflow w hw v dz hv0 h0 h1 g2).2
  · rfl

/-! ## The stick deadzone on machine integers -/

/-- C2, amended: on a Go `int` of 32 bits or more, for `0 ≤ dz < 32767` and every
`v` with `|v| ≤ 32767` (so that `v` and `-v` are raw stick values), both calls
return, the value at `v` and the negated value at `-v` differ by at most one
(`applyDeadzone v dz ≤ -applyDeadzone (-v) dz ≤ applyDeadzone v dz + 1`), and they
are equal exactly when `|v| ≤ dz` or `32767 - dz` divides `(|v| - dz) * 32767`. -/
theorem applyDeadzoneW_symmetry_within_one (w : Nat) (hw : 32 ≤ w) (dz v : Int)
    (h0 : 0 ≤ dz) (h1 : dz < 32767) (hv : |v| ≤ 32767) :
    ∃ x y, applyDeadzoneW w v dz = Except.ok x ∧ applyDeadzoneW w (-v) dz = Except.ok y ∧
      x ≤ -y ∧ -y ≤ x + 1 ∧
      (x = -y ↔ |v| ≤ dz ∨ (32767 - dz) ∣ (|v| - dz) * 32767) := by
  obtain ⟨hlo, hhi⟩ := abs_le.mp hv
  obtain ⟨x, y, hx, hy, b1, b2, hiff⟩ := applyDeadzone_mirror_int dz v h0 h1
  refine ⟨x, y, ?_, ?_, b1, b2, ?_⟩
  · rw [applyDeadzoneW_of_raw w hw v dz (by omega) hhi h0 h1]
    exact hx
  · rw [applyDeadzoneW_of_raw w hw (-v) dz (by omega) (by omega) h0 h1]
    exact hy
  · rw [hiff]
    constructor
    · rintro (h | h | h)
      · exact Or.inl h
      · have e : |v| = 32767 := le_antisymm hv h
        rw [e]
        exact Or.inr (Dvd.intro _ rfl)
      · exact Or.inr h
    · rintro (h | h)
      · exact Or.inl h
      · exact Or.inr (Or.inr h)

theorem applyDeadzoneW_symmetry_within_one_witness :
    32 ≤ 32 ∧ (0 : Int) ≤ 7849 ∧ (7849 : Int) < 32767 ∧ |(7850 : Int)| ≤ 32767 ∧
    ∃ x y, applyDeadzoneW 32 7850 7849 = Except.ok x ∧
      applyDeadzoneW 32 (-7850) 7849 = Except.ok y ∧
      x ≤ -y ∧ -y ≤ x + 1 ∧
      (x = -y ↔ |(7850 : Int)| ≤ 7849 ∨
        (32767 - 7849 : Int) ∣ (|(7850 : Int)| - 7849) * 32767) :=
  ⟨by decide, by decide, by decide, by decide,
    applyDeadzoneW_symmetry_within_one 32 (by decide) 7849 7850 (by decide) (by decide)
      (by decide)⟩

/-- C4, as stated, fails on Go integers: the product inside `scaleValue` wraps.
On a 32-bit `int`, `a = 20000 ≤ b = 73388` with deadzone `7849` give `15978` and
`-86180`; on a 64-bit `int`, `b = 300000000000000` gives `-345799986915753`. -/
theorem applyDeadzoneW_monotone_fails :
    (applyDeadzoneW 32 20000 7849 = Except.ok 15978 ∧
      applyDeadzoneW 32 73388 7849 = Except.ok (-86180) ∧
      fitsInt 32 20000 ∧ fitsInt 32 73388) ∧
    (applyDeadzoneW 64 20000 7849 = Except.ok 15978 ∧
      applyDeadzoneW 64 300000000000000 7849 = Except.ok (-345799986915753) ∧
      fitsInt 64 20000 ∧ fitsInt 64 300000000000000) ∧
    ¬ (∀ dz a b : Int, 0 ≤ dz → dz < 32767 → fitsInt 32 a → fitsInt 32 b → a ≤ b →
        ∃ x y, applyDeadzoneW 32 a dz = Except.ok x ∧ applyDeadzoneW 32 b dz = Except.ok y ∧
          x ≤ y) ∧
    ¬ (∀ dz a b : Int, 0 ≤ dz → dz < 32767 → fitsInt 64 a → fitsInt 64 b → a ≤ b →
        ∃ x y, applyDeadzoneW 64 a dz = Except.ok x ∧ applyDeadzoneW 64 b dz = Except.ok y ∧
          x ≤ y) := by
  have a32 : applyDeadzoneW 32 20000 7849 = Except.ok 15978 := by decide
  have b32 : applyDeadzoneW 32 73388 7849 = Except.ok (-86180) := by decide
  have a64 : applyDeadzoneW 64 20000 7849 = Except.ok 15978 := by decide
  have b64 : applyDeadzoneW 64 300000000000000 7849 = Except.ok (-345799986915753) := by
    decide
  refine ⟨⟨a32, b32, by decide, by decide⟩, ⟨a64, b64, by decide, by decide⟩, ?_, ?_⟩
  · intro h
    obtain ⟨x, y, hx, hy, hxy⟩ :=
      h 7849 20000 73388 (by decide) (by decide) (by decide) (by decide) (by decide)
    rw [a32] at hx
    rw [b32] at hy
    injection hx with hx
    injection hy with hy
    omega
  · intro h
    obtain ⟨x, y, hx, hy, hxy⟩ :=
      h 7849 20000 300000000000000 (by decide) (by decide) (by decide) (by decide)
        (by decide)
    rw [a64] at hx
    rw [b64] at hy
    injection hx with hx
    injection hy with hy
    omega

/-- C4, amended: on a Go `int` of 32 bits or more, for `0 ≤ dz < 32767` and all raw
stick values `a ≤ b` in `[-32768, 32767]`, both calls return and
`applyDeadzone a dz ≤ applyDeadzone b dz`, wherever `a` and `b` lie relative to
the deadzone. -/
theorem applyDeadzoneW_monotone (w : Nat) (hw : 32 ≤ w) (dz a b : Int) (h0 : 0 ≤ dz)
    (h1 : dz < 32767) (ha : -32768 ≤ a) (hab : a ≤ b) (hb : b ≤ 32767) :
    ∃ x y, applyDeadzoneW w a dz = Except.ok x ∧ applyDeadzoneW w b dz = Except.ok y ∧
      x ≤ y := by
  obtain ⟨x, y, hx, hy, hxy⟩ := applyDeadzone_monotone_int dz a b h0 h1 hab
  refine ⟨x, y, ?_, ?_, hxy⟩
  · rw [applyDeadzoneW_of_raw w hw a dz ha (by omega) h0 h1]
    exact hx
  · rw [applyDeadzoneW_of_raw w hw b dz (by omega) hb h0 h1]
    exact hy

theorem applyDeadzoneW_monotone_witness :
    32 ≤ 32 ∧ (0 : Int) ≤ 7849 ∧ (7849 : Int) < 32767 ∧ (-32768 : Int) ≤ -20000 ∧
    (-20000 : Int) ≤ 20000 ∧ (20000 : Int) ≤ 32767 ∧
    ∃ x y, applyDeadzoneW 32 (-20000) 7849 = Except.ok x ∧
      applyDeadzoneW 32 20000 7849 = Except.ok y ∧ x ≤ y :=
  ⟨by decide, by decide, by decide, by decide, by decide, by decide,
    applyDeadzoneW_monotone 32 (by decide) 7849 (-20000) 20000 (by decide) (by decide)
      (by decide) (by decide) (by decide)⟩

/-- C13, as stated, fails on Go integers: the product inside `scaleValue` wraps.
On a 32-bit `int`, `v = 73388 > dz = 7849` gives the negative value `-86180`; on a
64-bit `int`, `v = 300000000000000` gives `-345799986915753`. -/
theorem applyDeadzoneW_sign_fails :
    (applyDeadzoneW 32 73388 7849 = Except.ok (-86180) ∧ fitsInt 32 73388) ∧
    (applyDeadzoneW 64 300000000000000 7849 = Except.ok (-345799986915753) ∧
      fitsInt 64 300000000000000) ∧
    ¬ (∀ dz v : Int, 0 ≤ dz → dz < 32767 → fitsInt 32 v →
        ∃ r, applyDeadzoneW 32 v dz = Except.ok r ∧ (v > dz → r > 0) ∧ (v < -dz → r < 0)) ∧
    ¬ (∀ dz v : Int, 0 ≤ dz → dz < 32767 → fitsInt 64 v →
        ∃ r, applyDeadzoneW 64 v dz = Except.ok r ∧ (v > dz → r > 0) ∧ (v < -dz → r < 0)) := by
  have b32 : applyDeadzoneW 32 73388 7849 = Except.ok (-86180) := by decide
  have b64 : applyDeadzoneW 64 300000000000000 7849 = Except.ok (-345799986915753) := by
    decide
  refine ⟨⟨b32, by decide⟩, ⟨b64, by decide⟩, ?_, ?_⟩
  · intro h
    obtain ⟨r, hr, hpos, _⟩ := h 7849 73388 (by decide) (by decide) (by decide)
    rw [b32] at hr
    injection hr with hr
    have := hpos (by decide)
    omega
  · intro h
    obtain ⟨r, hr, hpos, _⟩ := h 7849 300000000000000 (by decide) (by decide) (by decide)
    rw [b64] at hr
    injection hr with hr
    have := hpos (by decide)
    omega

/-- C13, amended: on a Go `int` of 32 bits or more, for `0 ≤ dz < 32767` and every
raw stick value `v` in `[-32768, 32767]`, `applyDeadzone v dz` returns a value
that is positive when `v > dz`, negative when `v < -dz`, and zero if and only if
`|v| ≤ dz`; and `applyDeadzone 7850 7849 = 1`. -/
theorem applyDeadzoneW_sign (w : Nat) (hw : 32 ≤ w) (dz v : Int) (h0 : 0 ≤ dz)
    (h1 : dz < 32767) (hv0 : -32768 ≤ v) (hv1 : v ≤ 32767) :
    (∃ r, applyDeadzoneW w v dz = Except.ok r ∧ (v > dz → r > 0) ∧ (v < -dz → r < 0) ∧
      (r = 0 ↔ |v| ≤ dz)) ∧
    applyDeadzoneW w 7850 7849 = Except.ok 1 := by
  obtain ⟨⟨r, hr, hrest⟩, h1850⟩ := applyDeadzone_sign_int dz v h0 h1
  constructor
  · refine ⟨r, ?_, hrest⟩
    rw [applyDeadzoneW_of_raw w hw v dz hv0 hv1 h0 h1]
    exact hr
  · rw [applyDeadzoneW_of_raw w hw 7850 7849 (by decide) (by decide) (by decide) (by decide)]
    exact h1850

theorem applyDeadzoneW_sign_witness :
    32 ≤ 32 ∧ (0 : Int) ≤ 7849 ∧ (7849 : Int) < 32767 ∧ (-32768 : Int) ≤ -7850 ∧
    (-7850 : Int) ≤ 32767 ∧
    (∃ r, applyDeadzoneW 32 (-7850) 7849 = Except.ok r ∧ ((-7850 : Int) > 7849 → r > 0) ∧
      ((-7850 : Int) < -7849 → r < 0) ∧ (r = 0 ↔ |(-7850 : Int)| ≤ 7849)) ∧
    applyDeadzoneW 32 7850 7849 = Except.ok 1 :=
  ⟨by decide, by decide, by decide, by decide, by decide,
    applyDeadzoneW_sign 32 (by decide) 7849 (-7850) (by decide) (by decide) (by decide)
      (by decide)⟩

/-- C11, at the failing input: for the raw stick value `-32768` and the deadzone
`16384`, `applyDeadzone` calls `scaleValue` with `value = -32768` below
`srcMin = -32767` and returns `-32769`, below `-32768`, with unbounded, 32-bit
and 64-bit arithmetic alike; so the normalized value does not stay in
`[-32768, 32767]` for every deadzone `0 ≤ dz < 32767`. -/
theorem applyDeadzone_range_fails :
    applyDeadzoneCall (-32768) 16384 = some ⟨-32768, -32767, -16384, -32767, 0⟩ ∧
    applyDeadzone (-32768) 16384 = Except.ok (-32769) ∧
    applyDeadzoneW 32 (-32768) 16384 = Except.ok (-32769) ∧
    applyDeadzoneW 64 (-32768) 16384 = Except.ok (-32769) ∧
    ¬ (∀ v dz : Int, -32768 ≤ v → v ≤ 32767 → 0 ≤ dz → dz < 32767 →
        ∃ r, applyDeadzone v dz = Except.ok r ∧ -32768 ≤ r ∧ r ≤ 32767) := by
  refine ⟨by decide, by decide, by decide, by decide, ?_⟩
  intro h
  obtain ⟨r, hr, hlo, _⟩ := h (-32768) 16384 (by decide) (by decide) (by decide) (by decide)
  have e : applyDeadzone (-32768) 16384 = Except.ok (-32769) := by decide
  rw [e] at hr
  injection hr with hr
  omega

/-! ## The rescaling on machine integers -/

/-- C8, as stated, fails on Go integers: when an intermediate result overflows,
`scaleValue` does not return the value of the formula.  On a 32-bit `int`,
`scaleValue 70000 0 70000 0 70000` is `8643` where the formula gives `70000`; on
a 64-bit `int`, `scaleValue (-2^63) 0 (-1) 0 1` is `-2^63` where the formula
gives `2^63`. -/
theorem scaleValueW_formula_fails :
    (scaleValueW 32 70000 0 70000 0 70000 = Except.ok 8643 ∧
      scaleValueTruncating 70000 0 70000 0 70000 = 70000 ∧ fitsInt 32 70000) ∧
    (scaleValueW 64 (-9223372036854775808) 0 (-1) 0 1 = Except.ok (-9223372036854775808) ∧
      scaleValueTruncating (-9223372036854775808) 0 (-1) 0 1 = 9223372036854775808 ∧
      fitsInt 64 (-9223372036854775808)) ∧
    ¬ (∀ value srcMin srcMax tgtMin tgtMax : Int, srcMax ≠ srcMin →
        fitsInt 32 value → fitsInt 32 srcMin → fitsInt 32 srcMax → fitsInt 32 tgtMin →
        fitsInt 32 tgtMax →
        scaleValueW 32 value srcMin srcMax tgtMin tgtMax =
          Except.ok (scaleValueTruncating value srcMin srcMax tgtMin tgtMax)) ∧
    ¬ (∀ value srcMin srcMax tgtMin tgtMax : Int, srcMax ≠ srcMin →
        fitsInt 64 value → fitsInt 64 srcMin → fitsInt 64 srcMax → fitsInt 64 tgtMin →
        fitsInt 64 tgtMax →
        scaleValueW 64 value srcMin srcMax tgtMin tgtMax =
          Except.ok (scaleValueTruncating value srcMin srcMax tgtMin tgtMax)) := by
  have e32 : scaleValueW 32 70000 0 70000 0 70000 = Except.ok 8643 := by decide
  have e64 : scaleValueW 64 (-9223372036854775808) 0 (-1) 0 1 =
      Except.ok (-9223372036854775808) := by decide
  refine ⟨⟨e32, by decide, by decide⟩, ⟨e64, by decide, by decide⟩, ?_, ?_⟩
  · intro h
    have := h 70000 0 70000 0 70000 (by decide) (by decide) (by decide) (by decide)
      (by decide) (by decide)
    rw [e32] at this
    exact absurd this (by decide)
  · intro h
    have := h (-9223372036854775808) 0 (-1) 0 1 (by decide) (by decide) (by decide)
      (by decide) (by decide) (by decide)
    rw [e64] at this
    exact absurd this (by decide)

/-- C8, amended: on a Go `int` of `w` bits, for all integers with `srcMax ≠ srcMin`
for which no intermediate result overflows (the two ranges, `value - srcMin`, the
product, the quotient and the final sum), `scaleValue` returns
`((value - srcMin) * (tgtMax - tgtMin)) tdiv (srcMax - srcMin) + tgtMin`, with
division truncating toward zero; for `w ≥ 32` this covers every call that
`applyDeadzone` makes on a raw stick value in `[-32768, 32767]` with
`0 ≤ dz < 32767` and every call that `applyTriggerDeadzone` makes on a raw trigger
value in `[0, 255]` with `0 ≤ dz < 255`. -/
theorem scaleValueW_eq_truncating (w : Nat) :
    (1 ≤ w → ∀ value srcMin srcMax tgtMin tgtMax : Int, srcMax ≠ srcMin →
      scaleValueFits w value srcMin srcMax tgtMin tgtMax →
      scaleValueW w value srcMin srcMax tgtMin tgtMax =
        Except.ok (scaleValueTruncating value srcMin srcMax tgtMin tgtMax)) ∧
    (32 ≤ w → ∀ v dz : Int, -32768 ≤ v → v ≤ 32767 → 0 ≤ dz → dz < 32767 →
      ∀ c, applyDeadzoneCall v dz = some c →
        scaleValueW w c.value c.srcMin c.srcMax c.tgtMin c.tgtMax =
          Except.ok (scaleValueTruncating c.value c.srcMin c.srcMax c.tgtMin c.tgtMax)) ∧
    (32 ≤ w → ∀ v dz : Int, 0 ≤ v → v ≤ 255 → 0 ≤ dz → dz < 255 →
      ∀ c, applyTriggerDeadzoneCall v dz = some c →
        scaleValueW w c.value c.srcMin c.srcMax c.tgtMin c.tgtMax =
          Except.ok (scaleValueTruncating c.value c.srcMin c.srcMax c.tgtMin c.tgtMax)) := by
  refine ⟨?_, ?_, ?_⟩
  · intro hw value srcMin srcMax tgtMin tgtMax h hfit
    rw [scaleValueW_of_fits w hw _ _ _ _ _ hfit, scaleValue_of_ne _ _ _ _ _ h]
    rfl
  · intro hw v dz hv0 hv1 h0 h1 c hc
    unfold applyDeadzoneCall at hc
    split_ifs at hc with g1 g2
    · injection hc with hc
      subst hc
      show scaleValueW w v dz 32767 0 32767 = _
      rw [(stick_above_no_overflow w hw v dz hv1 h0 h1 g1).2,
        scaleValue_of_ne _ _ _ _ _ (by omega)]
      rfl
    · injection hc with hc
      subst hc
      show scaleValueW w v (-32767) (-dz) (-32767) 0 = _
      rw [(stick_below_no_overflow w hw v dz hv0 h0 h1 g2).2,
        scaleValue_of_ne _ _ _ _ _ (by omega)]
      rfl
  · intro hw v dz _ hv1 h0 h1 c hc
    unfold applyTriggerDeadzoneCall at hc
    split_ifs at hc with g1
    injection hc with hc
    subst hc
    show scaleValueW w v dz 255 0 255 = _
    rw [(trigger_no_overflow w hw v dz hv1 h0 h1 g1).2, scaleValue_of_ne _ _ _ _ _ (by omega)]
    rfl

theorem scaleValueW_eq_truncating_witness :
    (1 ≤ 32 ∧ (2 : Int) ≠ 0 ∧ scaleValueFits 32 (-1) 0 2 0 1 ∧
      scaleValueW 32 (-1) 0 2 0 1 = Except.ok (scaleValueTruncating (-1) 0 2 0 1) ∧
      scaleValueTruncating (-1) 0 2 0 1 = 0 ∧ scaleValueFloor (-1) 0 2 0 1 = -1) ∧
    (32 ≤ 32 ∧ (-32768 : Int) ≤ -32768 ∧ (-32768 : Int) ≤ 32767 ∧ (0 : Int) ≤ 7849 ∧
      (7849 : Int) < 32767 ∧
      applyDeadzoneCall (-32768) 7849 = some ⟨-32768, -32767, -7849, -32767, 0⟩ ∧
      scaleValueW 32 (-32768) (-32767) (-7849) (-32767) 0 =
        Except.ok (scaleValueTruncating (-32768) (-32767) (-7849) (-32767) 0)) :=
  ⟨⟨by decide, by decide, by decide,
      (scaleValueW_eq_truncating 32).1 (by decide) (-1) 0 2 0 1 (by decide) (by decide),
      by decide, by decide⟩,
    by decide, by decide, by decide, by decide, by decide, by decide,
    (scaleValueW_eq_truncating 32).2.1 (by decide) (-32768) 7849 (by decide) (by decide)
      (by decide) (by decide) ⟨-32768, -32767, -7849, -32767, 0⟩ (by decide)⟩

/-- C18, as stated, fails on Go integers for the upper end: the product
`(srcMax - srcMin) * (tgtMax - tgtMin)` wraps.  On a 32-bit `int`,
`scaleValue 65536 0 65536 0 65536` is `0`, not `65536`; on a 64-bit `int`,
`scaleValue 3 0 3 0 (2^63 - 1)` is `3074457345618258601`, not `2^63 - 1`. -/
theorem scaleValueW_endpoints_fails :
    (scaleValueW 32 65536 0 65536 0 65536 = Except.ok 0 ∧ fitsInt 32 65536) ∧
    (scaleValueW 64 3 0 3 0 9223372036854775807 = Except.ok 3074457345618258601 ∧
      fitsInt 64 9223372036854775807) ∧
    ¬ (∀ srcMin srcMax tgtMin tgtMax : Int, srcMin ≠ srcMax → fitsInt 32 srcMin →
        fitsInt 32 srcMax → fitsInt 32 tgtMin → fitsInt 32 tgtMax →
        scaleValueW 32 srcMax srcMin srcMax tgtMin tgtMax = Except.ok tgtMax) ∧
    ¬ (∀ srcMin srcMax tgtMin tgtMax : Int, srcMin ≠ srcMax → fitsInt 64 srcMin →
        fitsInt 64 srcMax → fitsInt 64 tgtMin → fitsInt 64 tgtMax →
        scaleValueW 64 srcMax srcMin srcMax tgtMin tgtMax = Except.ok tgtMax) := by
  have e32 : scaleValueW 32 65536 0 65536 0 65536 = Except.ok 0 := by decide
  have e64 : scaleValueW 64 3 0 3 0 9223372036854775807 =
      Except.ok 3074457345618258601 := by decide
  refine ⟨⟨e32, by decide⟩, ⟨e64, by decide⟩, ?_, ?_⟩
  · intro h
    have := h 0 65536 0 65536 (by decide) (by decide) (by decide) (by decide) (by decide)
    rw [e32] at this
    exact absurd this (by decide)
  · intro h
    have := h 0 3 0 9223372036854775807 (by decide) (by decide) (by decide) (by decide)
      (by decide)
    rw [e64] at this
    exact absurd this (by decide)

/-- C18, amended: on a Go `int` of 32 bits or more, for all integers
`srcMin ≠ srcMax`, `scaleValue` maps `srcMin` to `tgtMin`; it maps `srcMax` to
`tgtMax` whenever the two ranges `srcMax - srcMin`, `tgtMax - tgtMin` and their
product do not overflow; hence, for `0 ≤ dz < 32767`, the two rescalings used by
`applyDeadzone` take the value `0` at `v = dz` and at `v = -dz`, which is what
`applyDeadzone` returns at these two boundary values. -/
theorem scaleValueW_endpoints (w : Nat) (hw : 32 ≤ w) :
    (∀ srcMin srcMax tgtMin tgtMax : Int, srcMin ≠ srcMax → fitsInt w srcMin →
      fitsInt w srcMax → fitsInt w tgtMin →
      scaleValueW w srcMin srcMin srcMax tgtMin tgtMax = Except.ok tgtMin) ∧
    (∀ srcMin srcMax tgtMin tgtMax : Int, srcMin ≠ srcMax → fitsInt w (srcMax - srcMin) →
      fitsInt w (tgtMax - tgtMin) → fitsInt w ((srcMax - srcMin) * (tgtMax - tgtMin)) →
      fitsInt w tgtMax →
      scaleValueW w srcMax srcMin srcMax tgtMin tgtMax = Except.ok tgtMax) ∧
    (∀ dz : Int, 0 ≤ dz → dz < 32767 →
      scaleValueW w dz dz 32767 0 32767 = Except.ok 0 ∧
      scaleValueW w (-dz) (-32767) (-dz) (-32767) 0 = Except.ok 0 ∧
      applyDeadzoneW w dz dz = Except.ok 0 ∧ applyDeadzoneW w (-dz) dz = Except.ok 0) := by
  have hw1 : 1 ≤ w := by omega
  have lower : ∀ srcMin srcMax tgtMin tgtMax : Int, srcMin ≠ srcMax → fitsInt w srcMin →
      fitsInt w srcMax → fitsInt w tgtMin →
      scaleValueW w srcMin srcMin srcMax tgtMin tgtMax = Except.ok tgtMin := by
    intro srcMin srcMax tgtMin tgtMax h f1 f2 f3
    have hne := wrapInt_sub_ne_zero w hw1 srcMax srcMin f2 f1 (fun e => h e.symm)
    have z : wrapInt w 0 = 0 := wrapInt_of_small w hw 0 (by decide) (by decide)
    unfold scaleValueW
    simp only [if_neg hne, sub_self, z, Int.zero_mul, Int.zero_tdiv, Int.zero_add,
      wrapInt_of_fits w hw1 tgtMin f3]
  have upper : ∀ srcMin srcMax tgtMin tgtMax : Int, srcMin ≠ srcMax →
      fitsInt w (srcMax - srcMin) → fitsInt w (tgtMax - tgtMin) →
      fitsInt w ((srcMax - srcMin) * (tgtMax - tgtMin)) → fitsInt w tgtMax →
      scaleValueW w srcMax srcMin srcMax tgtMin tgtMax = Except.ok tgtMax := by
    intro srcMin srcMax tgtMin tgtMax h f1 f2 f3 f4
    have hd : srcMax - srcMin ≠ 0 := fun e => h (by omega)
    have q : ((srcMax - srcMin) * (tgtMax - tgtMin)).tdiv (srcMax - srcMin) = tgtMax - tgtMin :=
      Int.mul_tdiv_cancel_left _ hd
    have s : tgtMax - tgtMin + tgtMin = tgtMax := by omega
    have hfit : scaleValueFits w srcMax srcMin srcMax tgtMin tgtMax := by
      refine ⟨f1, f2, f1, f3, ?_, ?_⟩
      · rw [q]
        exact f2
      · rw [q, s]
        exact f4
    rw [scaleValueW_of_fits w hw1 _ _ _ _ _ hfit, scaleValue_of_ne _ _ _ _ _ (fun e => h e.symm),
      q, s]
  refine ⟨lower, upper, ?_⟩
  intro dz h0 h1
  refine ⟨?_, ?_, ?_, ?_⟩
  · exact lower dz 32767 0 32767 (by omega) (fitsInt_of_small w hw _ (by omega) (by omega))
      (fitsInt_of_small w hw _ (by decide) (by decide))
      (fitsInt_of_small w hw _ (by decide) (by decide))
  · refine upper (-32767) (-dz) (-32767) 0 (by omega)
      (fitsInt_of_small w hw _ (by omega) (by omega))
      (fitsInt_of_small w hw _ (by decide) (by decide))
      (fitsInt_of_small w hw _ ?_ ?_)
      (fitsInt_of_small w hw _ (by decide) (by decide))
    · have : (0 : Int) ≤ (-dz - -32767) * (0 - -32767) := by nlinarith
      omega
    · have : (-dz - -32767) * (0 - -32767) ≤ 32767 * 32767 := by nlinarith
      omega
  · rw [applyDeadzoneW_of_raw w hw dz dz (by omega) (by omega) h0 h1]
    exact applyDeadzone_inside dz dz (by omega) (by omega)
  · rw [applyDeadzoneW_of_raw w hw (-dz) dz (by omega) (by omega) h0 h1]
    exact applyDeadzone_inside (-dz) dz (by omega) (by omega)

theorem scaleValueW_endpoints_witness :
    32 ≤ 32 ∧
    ((10 : Int) ≠ 20 ∧ fitsInt 32 10 ∧ fitsInt 32 20 ∧ fitsInt 32 (-5) ∧
      scaleValueW 32 10 10 20 (-5) 7 = Except.ok (-5)) ∧
    ((10 : Int) ≠ 20 ∧ fitsInt 32 (20 - 10) ∧ fitsInt 32 (7 - -5) ∧
      fitsInt 32 ((20 - 10) * (7 - -5)) ∧ fitsInt 32 7 ∧
      scaleValueW 32 20 10 20 (-5) 7 = Except.ok 7) ∧
    ((0 : Int) ≤ 7849 ∧ (7849 : Int) < 32767 ∧
      scaleValueW 32 7849 7849 32767 0 32767 = Except.ok 0 ∧
      scaleValueW 32 (-7849) (-32767) (-7849) (-32767) 0 = Except.ok 0 ∧
      applyDeadzoneW 32 7849 7849 = Except.ok 0 ∧
      applyDeadzoneW 32 (-7849) 7849 = Except.ok 0) :=
  ⟨by decide,
    ⟨by decide, by decide, by decide, by decide,
      (scaleValueW_endpoints 32 (by decide)).1 10 20 (-5) 7 (by decide) (by decide)
        (by decide) (by decide)⟩,
    ⟨by decide, by decide, by decide, by decide, by decide,
      (scaleValueW_endpoints 32 (by decide)).2.1 10 20 (-5) 7 (by decide) (by decide)
        (by decide) (by decide) (by decide)⟩,
    by decide, by decide, (scaleValueW_endpoints 32 (by decide)).2.2 7849 (by decide)
      (by decide)⟩

end Joystick
